import Mathlib

/-!
Verification of the Model Serving Control Plane of the donut repository.

The Python sources under backend/training (model_manager.py,
inference_engine.py, tasks.py) are shallowly embedded: Django rows become
structures, querysets become list filters, Python dicts become
insertion-ordered association lists, floats become rationals, timestamps
become natural numbers, and external capabilities (model loading, neural
inference, regular-expression matching, md5 hashing) become oracle
function parameters.
-/

namespace Donut

/-! ### Association-list helpers (Python dict semantics: insertion order,
update-in-place, append on fresh key) -/

def alGet {β : Type} (l : List (String × β)) (k : String) : Option β :=
  (l.find? (fun p => p.1 == k)).map (·.2)

def alMem {β : Type} (l : List (String × β)) (k : String) : Bool :=
  l.any (fun p => p.1 == k)

def alSet {β : Type} (l : List (String × β)) (k : String) (v : β) : List (String × β) :=
  if alMem l k then l.map (fun p => if p.1 == k then (k, v) else p) else l ++ [(k, v)]

def alErase {β : Type} (l : List (String × β)) (k : String) : List (String × β) :=
  l.filter (fun p => p.1 != k)

def alKeys {β : Type} (l : List (String × β)) : List String :=
  l.map (·.1)

/-- Python `min(d, key=d.get)`: the first key attaining the minimal value. -/
def minPair : List (String × Nat) → Option (String × Nat)
  | [] => none
  | p :: rest =>
    match minPair rest with
    | none => some p
    | some q => if p.2 ≤ q.2 then some p else some q

/-! ### ModelCache (inference_engine.py, class ModelCache)

Loaded `DonutInference` handles are opaque: we represent them by `Nat`.
`time.time()` values are represented by a strictly increasing `Nat` tick
supplied by the caller. -/

structure ModelCache where
  max_models : Nat
  models : List (String × Nat)
  access_times : List (String × Nat)
deriving Repr, DecidableEq

/-- `ModelCache.__init__` with `models = {}`, `access_times = {}`. -/
def ModelCache.init (max_models : Nat) : ModelCache :=
  ⟨max_models, [], []⟩

/-- `get_model`: on a hit refresh the access time and return the handle. -/
def ModelCache.get_model (c : ModelCache) (model_id : String) (now : Nat) :
    Option Nat × ModelCache :=
  match alGet c.models model_id with
  | some m => (some m, { c with access_times := alSet c.access_times model_id now })
  | none => (none, c)

/-- `put_model`: evict the least-recently-used entry when the cache is full
and the key is absent, then insert.  `none` models the `ValueError` that
Python `min` raises on an empty dict (capacity 0). -/
def ModelCache.put_model (c : ModelCache) (model_id : String) (model : Nat) (now : Nat) :
    Option ModelCache :=
  if c.max_models ≤ c.models.length ∧ alMem c.models model_id = false then
    match minPair c.access_times with
    | none => none
    | some lru =>
      some { c with
        models := alSet (alErase c.models lru.1) model_id model,
        access_times := alSet (alErase c.access_times lru.1) model_id now }
  else
    some { c with
      models := alSet c.models model_id model,
      access_times := alSet c.access_times model_id now }

/-- `clear`: drop both maps. -/
def ModelCache.clear (c : ModelCache) : ModelCache :=
  { c with models := [], access_times := [] }

/-- Run a sequence of `put_model` calls with a strictly increasing clock;
a failed put (Python exception before any mutation) leaves the cache
unchanged. -/
def runPuts (c : ModelCache) (t : Nat) : List (String × Nat) → ModelCache
  | [] => c
  | (model_id, m) :: rest =>
    runPuts ((c.put_model model_id m t).getD c) (t + 1) rest

/-- The structural invariant maintained by every cache operation: the two
dicts hold the same keys in the same order, and the entry count is within
capacity. -/
def CacheInv (c : ModelCache) : Prop :=
  alKeys c.models = alKeys c.access_times ∧ c.models.length ≤ c.max_models ∧
    (alKeys c.models).Nodup

/-! ### Data model (training/models.py, documents/models.py)

`TrainedModel` rows; floats become `Rat`, datetimes become `Nat` seconds,
nullable columns become `Option`.  `DocumentType` foreign keys are
represented by the type name. -/

structure TrainedModel where
  id : String
  version : String
  document_type : String
  status : String
  is_production : Bool
  field_accuracy : Option Rat
  avg_inference_time : Option Rat
  inference_count : Nat
  last_used_at : Option Nat
  promoted_at : Option Nat
  model_path : String
deriving Repr, DecidableEq

/-- `ModelEvaluation` row (foreign key to its model by id). -/
structure ModelEvaluation where
  model_id : String
  field_matches : Nat
  total_fields : Nat
  confidence_score : Option Rat
deriving Repr, DecidableEq

/-- The relational store: the `TrainedModel` table, the `ModelEvaluation`
table and the `DocumentType` table (by name), each in database order. -/
structure Db where
  models : List TrainedModel
  evals : List ModelEvaluation
  doc_types : List String
deriving Repr, DecidableEq

/-- `TrainedModel.objects.filter(document_type=dt, is_production=True,
status='active').first()`. -/
def productionFor (db : Db) (dt : String) : Option TrainedModel :=
  (db.models.filter
    (fun m => m.document_type == dt && m.is_production && m.status == "active")).head?

/-- `model.evaluations.all()` (reverse foreign-key queryset). -/
def evalsFor (db : Db) (model_id : String) : List ModelEvaluation :=
  db.evals.filter (fun e => e.model_id == model_id)

/-! ### ModelPromotionCriteria (model_manager.py) -/

structure ModelPromotionCriteria where
  min_accuracy : Rat
  min_evaluations : Nat
  improvement_threshold : Rat
  confidence_threshold : Rat
deriving Repr, DecidableEq

/-- Constructor defaults of `ModelPromotionCriteria.__init__`. -/
def ModelPromotionCriteria.default : ModelPromotionCriteria :=
  ⟨85/100, 10, 5/100, 8/10⟩

/-- Python `x or 0.5` on a nullable float: `0.5` when the value is `None`
or falsy (`0.0`). -/
def pyOrHalf (x : Option Rat) : Rat :=
  match x with
  | none => 1/2
  | some v => if v == 0 then 1/2 else v

/-- `sum(e.field_matches / max(e.total_fields, 1) for e in evs) / len(evs)`. -/
def avgAccuracyOf (evs : List ModelEvaluation) : Rat :=
  (evs.map (fun e => (e.field_matches : Rat) / (max e.total_fields 1 : Nat))).sum / evs.length

/-- `sum(e.confidence_score or 0.5 for e in evs) / len(evs)`. -/
def avgConfidenceOf (evs : List ModelEvaluation) : Rat :=
  (evs.map (fun e => pyOrHalf e.confidence_score)).sum / evs.length

/-- The dict returned by `evaluate_model`; the conditionally present
`metrics` keys become `Option` fields (reason strings are kept as stable
tags, dropping the interpolated numbers). -/
structure EvaluationResult where
  promotable : Bool
  reasons : List String
  evaluation_count : Nat
  avg_accuracy : Option Rat
  avg_confidence : Option Rat
  current_production_accuracy : Option Rat
  improvement : Option Rat
deriving Repr, DecidableEq

/-- `ModelPromotionCriteria.evaluate_model`. -/
def ModelPromotionCriteria.evaluate_model (c : ModelPromotionCriteria) (db : Db)
    (model : TrainedModel) : EvaluationResult :=
  let evs := evalsFor db model.id
  let evaluation_count := evs.length
  if evaluation_count < c.min_evaluations then
    ⟨false, ["Insufficient evaluations"], evaluation_count, none, none, none, none⟩
  else
    let avg_accuracy := avgAccuracyOf evs
    let avg_confidence := avgConfidenceOf evs
    if avg_accuracy < c.min_accuracy then
      ⟨false, ["Accuracy too low"], evaluation_count,
        some avg_accuracy, some avg_confidence, none, none⟩
    else if avg_confidence < c.confidence_threshold then
      ⟨false, ["Confidence too low"], evaluation_count,
        some avg_accuracy, some avg_confidence, none, none⟩
    else
      match productionFor db model.document_type with
      | some current_production =>
        let current_evaluations := evalsFor db current_production.id
        if current_evaluations.length ≠ 0 then
          let current_avg_accuracy := avgAccuracyOf current_evaluations
          let improvement := avg_accuracy - current_avg_accuracy
          if improvement < c.improvement_threshold then
            ⟨false, ["Insufficient improvement"], evaluation_count,
              some avg_accuracy, some avg_confidence, some current_avg_accuracy, none⟩
          else
            ⟨true, ["Model meets all promotion criteria"], evaluation_count,
              some avg_accuracy, some avg_confidence, some current_avg_accuracy,
              some improvement⟩
        else
          ⟨true, ["Model meets all promotion criteria"], evaluation_count,
            some avg_accuracy, some avg_confidence, none, none⟩
      | none =>
        ⟨true, ["Model meets all promotion criteria"], evaluation_count,
          some avg_accuracy, some avg_confidence, none, none⟩

/-- Reference formula taken from the words of the specification: the mean
of `confidenceScore` with `0.5` substituted exactly when the value is
null. -/
def avgConfidenceNullDefaultSpec (evs : List ModelEvaluation) : Rat :=
  (evs.map (fun e => e.confidence_score.getD (1/2))).sum / evs.length

/-! ### The promotion transaction (ModelManager.auto_promote_models)

The body of `with transaction.atomic():` — demote every production model
of the candidate's document type, then activate the candidate (saved back
by primary key). -/

/-- `TrainedModel.objects.filter(document_type=dt, is_production=True)
.update(is_production=False, status='inactive')`. -/
def demoteAll (models : List TrainedModel) (dt : String) : List TrainedModel :=
  models.map (fun m =>
    if m.document_type == dt && m.is_production then
      { m with is_production := false, status := "inactive" }
    else m)

/-- The whole transaction: demote, then `model.save()` with
`is_production=True, status='active', promoted_at=now` for the candidate
row. -/
def promoteTransaction (models : List TrainedModel) (candidate : TrainedModel)
    (now : Nat) : List TrainedModel :=
  (demoteAll models candidate.document_type).map (fun m =>
    if m.id == candidate.id then
      { candidate with is_production := true, status := "active", promoted_at := some now }
    else m)

/-- Number of production-flagged rows of a document type. -/
def prodCount (models : List TrainedModel) (dt : String) : Nat :=
  (models.filter (fun m => m.document_type == dt && m.is_production)).length

/-- The spec's invariant: at most one production model per document type. -/
def AtMostOneProduction (models : List TrainedModel) : Prop :=
  ∀ dt : String, prodCount models dt ≤ 1

/-! ### ABTestManager (model_manager.py)

`active_tests` is a Python dict iterated in insertion order: a list of
configs.  `model_a`/`model_b` are in-memory `TrainedModel` references.
`hashlib.md5(...)` becomes an oracle `mdHash : String → Nat`; the
`random.random()` draw of the userless branch becomes an oracle value
`rand : Rat`. -/

structure ABTestConfig where
  test_id : String
  model_a : TrainedModel
  model_b : TrainedModel
  traffic_split : Rat
  start_time : Nat
  end_time : Nat
  model_a_requests : Nat
  model_b_requests : Nat
  model_a_success : Nat
  model_b_success : Nat
  status : String
deriving Repr, DecidableEq

/-- `start_ab_test`: fresh config with zero counters, status `active`. -/
def start_ab_test (model_a model_b : TrainedModel) (traffic_split : Rat)
    (duration_days : Nat) (now : Nat) (test_id : String) : ABTestConfig :=
  ⟨test_id, model_a, model_b, traffic_split, now, now + duration_days * 86400,
    0, 0, 0, 0, "active"⟩

/-- The routing condition of the loop in `get_model_for_request`. -/
def testMatches (t : ABTestConfig) (dt : String) (now : Nat) : Bool :=
  t.status == "active" && t.model_a.document_type == dt && now < t.end_time

/-- The per-test arm decision: hash-bucketed when a user id is present,
random draw otherwise. -/
def useModelB (mdHash : String → Nat) (rand : Rat) (user_id : Option String)
    (t : ABTestConfig) : Bool :=
  match user_id with
  | some u => decide (((mdHash (u ++ "_" ++ t.test_id) % 100 : Nat) : Rat) < t.traffic_split * 100)
  | none => decide (rand < t.traffic_split)

/-- The `for test_id, test_config in self.active_tests.items()` loop: the
first matching test routes the request and has its request counter
incremented; `none` when no test matches. -/
def routeTests (mdHash : String → Nat) (rand : Rat) (dt : String)
    (user_id : Option String) (now : Nat) :
    List ABTestConfig → Option (TrainedModel × List ABTestConfig)
  | [] => none
  | t :: ts =>
    if testMatches t dt now then
      if useModelB mdHash rand user_id t then
        some (t.model_b, { t with model_b_requests := t.model_b_requests + 1 } :: ts)
      else
        some (t.model_a, { t with model_a_requests := t.model_a_requests + 1 } :: ts)
    else
      match routeTests mdHash rand dt user_id now ts with
      | some (m, ts') => some (m, t :: ts')
      | none => none

/-- Errors raised by the embedded operations. -/
inductive EngineError
  | docTypeNotFound
  | modelNotFound
  | multipleModels
  | noProductionModel
  | missingSelector
  | loadFailed
  | inferenceFailed
  | cacheMinError
deriving Repr, DecidableEq

/-- `ABTestManager.get_model_for_request`: raises `DocumentType.DoesNotExist`
for an unknown type name; otherwise routes through the first matching
active test, falling back to the production lookup (whose `.first()` may
be `None`). -/
def get_model_for_request (db : Db) (tests : List ABTestConfig)
    (mdHash : String → Nat) (rand : Rat) (dt : String) (user_id : Option String)
    (now : Nat) : Except EngineError (Option TrainedModel × List ABTestConfig) :=
  if dt ∈ db.doc_types then
    match routeTests mdHash rand dt user_id now tests with
    | some (m, tests') => .ok (some m, tests')
    | none => .ok (productionFor db dt, tests)
  else
    .error .docTypeNotFound

/-- The arm that the hash bucketing of the claim designates for a user. -/
def chosenArm (mdHash : String → Nat) (u : String) (t : ABTestConfig) : TrainedModel :=
  if ((mdHash (u ++ "_" ++ t.test_id) % 100 : Nat) : Rat) < t.traffic_split * 100 then
    t.model_b
  else
    t.model_a

/-- `find?` form of the routing loop's first match. -/
def firstActiveTest (tests : List ABTestConfig) (dt : String) (now : Nat) :
    Option ABTestConfig :=
  tests.find? (fun t => testMatches t dt now)

/-! ### ConfidenceCalculator (inference_engine.py)

A Python value reaching `_validate_field` is abstracted by its textual
form `str(value)` together with its truthiness (`not value`).  Number
parsing (`float(str(v))`), date parsing (`dateutil.parser.parse`) and
regular-expression matching (`re.match`, anchored at the start) are
oracle parameters bundled in `PyOracles`. -/

structure PyValue where
  text : String
  falsy : Bool
deriving Repr, DecidableEq

/-- A validation-rule dict; absent keys are `none`/`false`, matching
`rule.get(...)` defaults at each use site. -/
structure FieldRule where
  type : Option String
  pattern : Option String
  min_length : Option Nat
  max_length : Option Nat
  min_value : Option Rat
  required : Bool
deriving Repr, DecidableEq

/-- A rule dict containing only a `type` key. -/
def FieldRule.ofType (t : String) : FieldRule :=
  ⟨some t, none, none, none, none, false⟩

structure PyOracles where
  parsesAsNumber : String → Bool
  parsesAsDate : String → Bool
  reMatch : String → String → Bool

/-- `ConfidenceCalculator._validate_field`. -/
def validate_field (o : PyOracles) (value : PyValue) (rule : FieldRule) : Rat :=
  if value.falsy then 2/10
  else
    let confidence : Rat := 5/10
    let expected_type := rule.type.getD "string"
    let confidence :=
      if expected_type == "number" then
        if o.parsesAsNumber value.text then confidence + 2/10 else confidence - 3/10
      else if expected_type == "date" then
        if o.parsesAsDate value.text then confidence + 2/10 else confidence - 3/10
      else confidence
    let confidence :=
      match rule.pattern with
      | some p => if o.reMatch p value.text then confidence + 2/10 else confidence - 2/10
      | none => confidence
    let min_length := rule.min_length.getD 0
    let value_length := value.text.length
    let lengthOk :=
      min_length ≤ value_length &&
        (match rule.max_length with
         | some mx => decide (value_length ≤ mx)
         | none => true)
    let confidence := if lengthOk then confidence + 1/10 else confidence - 2/10
    max 0 (min 1 confidence)

/-- Reference definition written from the words of the specification:
start at 0.5 and accumulate the three independent adjustments, clamping
at the end; empty/absent values short-circuit to 0.2. -/
def scoreFieldSpec (o : PyOracles) (value : PyValue) (rule : FieldRule) : Rat :=
  if value.falsy then 2/10
  else
    let et := rule.type.getD "string"
    let typeAdj : Rat :=
      if et == "number" then (if o.parsesAsNumber value.text then 2/10 else -(3/10))
      else if et == "date" then (if o.parsesAsDate value.text then 2/10 else -(3/10))
      else 0
    let patternAdj : Rat :=
      match rule.pattern with
      | some p => if o.reMatch p value.text then 2/10 else -(2/10)
      | none => 0
    let withinLength :=
      rule.min_length.getD 0 ≤ value.text.length ∧
        (∀ mx, rule.max_length = some mx → value.text.length ≤ mx)
    let lengthAdj : Rat := if withinLength then 1/10 else -(2/10)
    max 0 (min 1 (5/10 + typeAdj + patternAdj + lengthAdj))

/-- `InferenceEngine._load_validation_rules`. -/
def validationRules : List (String × List (String × FieldRule)) :=
  [("bank_statement",
    [("account_number", ⟨some "string", some "^[0-9]\x7b10,20\x7d$", none, none, none, false⟩),
     ("ifsc", ⟨some "string", some "^[A-Z]\x7b4\x7d0[A-Z0-9]\x7b6\x7d$", none, none, none, false⟩),
     ("transactions", ⟨some "array", none, some 1, none, none, false⟩)]),
   ("invoice",
    [("invoice_no", ⟨some "string", none, some 3, none, none, false⟩),
     ("gstin", ⟨some "string",
        some "^[0-9]\x7b2\x7d[A-Z]\x7b5\x7d[0-9]\x7b4\x7d[A-Z]\x7b1\x7d[1-9A-Z]\x7b1\x7dZ[0-9A-Z]\x7b1\x7d$",
        none, none, none, false⟩),
     ("grand_total", ⟨some "number", none, none, none, some 0, false⟩)]),
   ("form_16",
    [("pan", ⟨some "string", some "^[A-Z]\x7b5\x7d[0-9]\x7b4\x7d[A-Z]\x7b1\x7d$",
        none, none, none, false⟩),
     ("tan", ⟨some "string", some "^[A-Z]\x7b4\x7d[0-9]\x7b5\x7d[A-Z]\x7b1\x7d$",
        none, none, none, false⟩),
     ("gross_salary", ⟨some "number", none, none, none, some 0, false⟩)])]

/-- Raw model output: a JSON dict of fields, or something that is not a
dict. -/
inductive Extracted
  | fields (fs : List (String × PyValue))
  | nonDict
deriving Repr, DecidableEq

/-- `InferenceEngine._calculate_confidence`. -/
def calculate_confidence (o : PyOracles) (extracted : Extracted) (dt : String) :
    List (String × Rat) :=
  match extracted with
  | .nonDict => []
  | .fields fs =>
    let rules := (alGet validationRules dt).getD []
    fs.map (fun fv =>
      (fv.1,
        match alGet rules fv.1 with
        | some rule => validate_field o fv.2 rule
        | none => if fv.2.falsy then 3/10 else 7/10))

/-- `InferenceEngine._validate_output`. -/
def validate_output (o : PyOracles) (extracted : Extracted) (dt : String) :
    List String :=
  match extracted with
  | .nonDict => ["Invalid output format: expected dictionary"]
  | .fields fs =>
    let rules := (alGet validationRules dt).getD []
    rules.flatMap (fun fr =>
      match alGet fs fr.1 with
      | none =>
        if fr.2.required then ["Required field \x27" ++ fr.1 ++ "\x27 is missing"] else []
      | some v =>
        (if fr.2.type.getD "string" == "number" && !o.parsesAsNumber v.text then
          ["Field \x27" ++ fr.1 ++ "\x27 should be a number"]
        else []) ++
        (match fr.2.pattern with
         | some p =>
           if !v.falsy && !o.reMatch p v.text then
             ["Field \x27" ++ fr.1 ++ "\x27 format is invalid"]
           else []
         | none => []))

/-! ### InferenceEngine (inference_engine.py)

`DonutInference(path)` is the oracle `load : String → Option Nat` (`none`
is a load failure), the handle's `extract` is
`infer : Nat → String → String → Option Extracted` (`none` is an
inference failure).  `time`/`datetime.now()` become the `tick`/`now`
parameters, the measured wall-clock duration becomes `elapsed`. -/

structure EngineState where
  db : Db
  cache : ModelCache
deriving Repr, DecidableEq

/-- The model-resolution part of `InferenceEngine.get_production_model`:
`model_version` wins, then `doc_type`; translated errors are the raised
`DoesNotExist`/`ValueError` exceptions. -/
def resolveModel (db : Db) (doc_type model_version : Option String) :
    Except EngineError TrainedModel :=
  match model_version with
  | some v =>
    match db.models.filter (fun m => m.version == v && m.status == "active") with
    | [m] => .ok m
    | [] => .error .modelNotFound
    | _ => .error .multipleModels
  | none =>
    match doc_type with
    | some dt =>
      if dt ∈ db.doc_types then
        match productionFor db dt with
        | some m => .ok m
        | none => .error .noProductionModel
      else .error .docTypeNotFound
    | none => .error .missingSelector

/-- `InferenceEngine.get_production_model`: resolve, check the cache,
load and insert on a miss.  On every error path no mutation has happened
yet, so only the success case carries a new state. -/
def get_production_model (load : String → Option Nat) (st : EngineState)
    (doc_type model_version : Option String) (tick : Nat) :
    Except EngineError (TrainedModel × Nat × EngineState) :=
  match resolveModel st.db doc_type model_version with
  | .error e => .error e
  | .ok model =>
    let cache_key := "model_" ++ model.id
    match st.cache.get_model cache_key tick with
    | (some h, cache') => .ok (model, h, { st with cache := cache' })
    | (none, _) =>
      match load model.model_path with
      | none => .error .loadFailed
      | some h =>
        match st.cache.put_model cache_key h tick with
        | some cache' => .ok (model, h, { st with cache := cache' })
        | none => .error .cacheMinError

/-- The usage-statistics write-back of `InferenceEngine.extract`:
`inference_count += 1`, `last_used_at = datetime.now()`, and the
truthiness-guarded running blend of `avg_inference_time`. -/
def updateUsage (m : TrainedModel) (now : Nat) (elapsed : Rat) : TrainedModel :=
  { m with
    inference_count := m.inference_count + 1,
    last_used_at := some now,
    avg_inference_time :=
      match m.avg_inference_time with
      | some a => if a == 0 then some elapsed else some ((a + elapsed) / 2)
      | none => some elapsed }

/-- `model.save()`: write the row back by primary key. -/
def saveModel (db : Db) (m : TrainedModel) : Db :=
  { db with models := db.models.map (fun r => if r.id == m.id then m else r) }

/-- The result dict of a successful `extract`. -/
structure ExtractionResult where
  extracted_data : Extracted
  overall_confidence : Rat
  field_scores : List (String × Rat)
  threshold_met : Bool
  model_id : String
  model_version : String
  model_document_type : String
  inference_time : Rat
  model_accuracy : Rat
  validation_passed : Bool
  validation_errors : List String
deriving Repr, DecidableEq

/-- `InferenceEngine.extract`.  The returned state is the store as left
behind, including by a raising call (Python mutates in place before the
exception propagates). -/
def extract (o : PyOracles) (load : String → Option Nat)
    (infer : Nat → String → String → Option Extracted) (st : EngineState)
    (image_path : String) (doc_type model_version : Option String)
    (confidence_threshold : Rat) (tick now : Nat) (elapsed : Rat) :
    Except EngineError ExtractionResult × EngineState :=
  match get_production_model load st doc_type model_version tick with
  | .error e => (.error e, st)
  | .ok (model, h, st1) =>
    match infer h image_path model.document_type with
    | none => (.error .inferenceFailed, st1)
    | some extracted_data =>
      let confidence_scores := calculate_confidence o extracted_data model.document_type
      let overall_confidence : Rat :=
        if confidence_scores.isEmpty then 5/10
        else (confidence_scores.map (·.2)).sum / confidence_scores.length
      let updated := updateUsage model now elapsed
      let st2 := { st1 with db := saveModel st1.db updated }
      (.ok
        { extracted_data := extracted_data
          overall_confidence := overall_confidence
          field_scores := confidence_scores
          threshold_met := decide (confidence_threshold ≤ overall_confidence)
          model_id := model.id
          model_version := model.version
          model_document_type := model.document_type
          inference_time := elapsed
          model_accuracy := model.field_accuracy.getD 0
          validation_passed := decide (confidence_threshold ≤ overall_confidence)
          validation_errors := validate_output o extracted_data model.document_type },
        st2)

/-! ### Health (ModelManager.get_model_health, tasks.monitor_model_health) -/

/-- Per-document-type entry of the health dict. -/
structure DocTypeHealth where
  has_production_model : Bool
  model_version : Option String
  last_inference : Option Nat
  inference_count : Nat
deriving Repr, DecidableEq

/-- The dict returned by `get_model_health`. -/
structure HealthStatus where
  overall_status : String
  document_types : List (String × DocTypeHealth)
  total_models : Nat
  production_models : Nat
  active_ab_tests : Nat
deriving Repr, DecidableEq

/-- The per-type entry built inside the `for doc_type in document_types`
loop. -/
def docTypeHealth (db : Db) (dt : String) : DocTypeHealth :=
  match productionFor db dt with
  | some p => ⟨true, some p.version, p.last_used_at, p.inference_count⟩
  | none => ⟨false, none, none, 0⟩

/-- `ModelManager.get_model_health`: starts `healthy` and is downgraded by
the loop whenever a document type lacks a production model. -/
def get_model_health (db : Db) (tests : List ABTestConfig) : HealthStatus :=
  { overall_status :=
      db.doc_types.foldl
        (fun s dt => if (productionFor db dt).isNone then "degraded" else s) "healthy"
    document_types := db.doc_types.map (fun dt => (dt, docTypeHealth db dt))
    total_models := db.models.length
    production_models := (db.models.filter (fun m => m.is_production)).length
    active_ab_tests := (tests.filter (fun t => t.status == "active")).length }

/-- The issues list built by `tasks.monitor_model_health` from the health
dict (`24 hours` staleness is advisory). -/
def healthIssues (hs : HealthStatus) (now : Nat) : List String :=
  (if hs.overall_status ≠ "healthy" then ["Overall status is " ++ hs.overall_status] else [])
    ++ hs.document_types.flatMap (fun p =>
      (if !p.2.has_production_model then ["No production model for " ++ p.1] else [])
        ++ (match p.2.last_inference with
            | some t =>
              if 86400 < now - t then
                ["Model for " ++ p.1 ++ " hasn\x27t been used in 24+ hours"]
              else []
            | none => []))

/-- `tasks.monitor_model_health`: the health dict together with the issues
list (the dict itself is passed through unchanged). -/
def monitor_model_health (db : Db) (tests : List ABTestConfig) (now : Nat) :
    HealthStatus × List String :=
  let hs := get_model_health db tests
  (hs, healthIssues hs now)

/-- Whether an `Except` computation succeeded. -/
def isOk {ε α : Type} : Except ε α → Bool
  | .ok _ => true
  | .error _ => false

end Donut

namespace Donut

/-! ## Helper lemmas: association lists and the cache -/

theorem alMem_iff_mem_alKeys {β : Type} (l : List (String × β)) (k : String) :
    alMem l k = true ↔ k ∈ alKeys l := by
  induction l with
  | nil => simp [alMem, alKeys]
  | cons p ps ih =>
    simp only [alMem, List.any_cons, alKeys, List.map_cons, List.mem_cons, Bool.or_eq_true,
      beq_iff_eq] at *
    constructor
    · rintro (h | h)
      · exact Or.inl h.symm
      · exact Or.inr (ih.mp h)
    · rintro (h | h)
      · exact Or.inl h.symm
      · exact Or.inr (ih.mpr h)

theorem alKeys_alSet {β : Type} (l : List (String × β)) (k : String) (v : β) :
    alKeys (alSet l k v) = if alMem l k then alKeys l else alKeys l ++ [k] := by
  unfold alSet
  split
  · simp only [alKeys, List.map_map]
    apply List.map_congr_left
    intro p _
    by_cases h : p.1 = k
    · simp [h]
    · simp [h]
  · simp [alKeys]

theorem length_alSet {β : Type} (l : List (String × β)) (k : String) (v : β) :
    (alSet l k v).length = if alMem l k then l.length else l.length + 1 := by
  unfold alSet
  split <;> simp

theorem alKeys_alErase {β : Type} (l : List (String × β)) (k : String) :
    alKeys (alErase l k) = (alKeys l).filter (fun x => x != k) := by
  induction l with
  | nil => simp [alErase, alKeys]
  | cons p ps ih =>
    simp only [alErase, alKeys, List.filter_cons, List.map_cons] at *
    by_cases h : p.1 = k
    · simp [h, ih]
    · simp [h, ih, List.filter_cons]

theorem length_alErase_lt {β : Type} (l : List (String × β)) (k : String)
    (h : k ∈ alKeys l) : (alErase l k).length < l.length := by
  induction l with
  | nil => simp [alKeys] at h
  | cons p ps ih =>
    simp only [alKeys, List.map_cons, List.mem_cons] at h
    simp only [alErase, List.filter_cons]
    by_cases hp : p.1 = k
    · have hcond : (p.1 != k) = false := by simp [hp]
      rw [hcond]
      have : (List.filter (fun p => p.1 != k) ps).length ≤ ps.length :=
        List.length_filter_le _ _
      simp only [Bool.false_eq_true, if_false, List.length_cons]
      omega
    · have hk : k ∈ alKeys ps := by
        rcases h with h | h
        · exact absurd h.symm hp
        · exact h
      have hrec := ih hk
      simp only [alErase] at hrec
      have hcond : (p.1 != k) = true := by simp [hp]
      rw [hcond]
      simp only [if_true, List.length_cons]
      omega

theorem length_alErase_nodup {β : Type} (l : List (String × β)) (k : String)
    (hnd : (alKeys l).Nodup) (h : k ∈ alKeys l) :
    (alErase l k).length + 1 = l.length := by
  induction l with
  | nil => simp [alKeys] at h
  | cons p ps ih =>
    simp only [alKeys, List.map_cons, List.nodup_cons, List.mem_cons] at hnd h
    simp only [alErase, List.filter_cons]
    by_cases hp : p.1 = k
    · have hcond : (p.1 != k) = false := by simp [hp]
      rw [hcond]
      have hself : List.filter (fun p => p.1 != k) ps = ps := by
        apply List.filter_eq_self.mpr
        intro a ha
        have hak : a.1 ≠ k := by
          intro hak
          apply hnd.1
          rw [hp, ← hak]
          exact List.mem_map_of_mem _ ha
        simp [hak]
      simp only [Bool.false_eq_true, if_false, hself, List.length_cons]
    · have hk : k ∈ alKeys ps := by
        rcases h with h | h
        · exact absurd h.symm hp
        · exact h
      have hrec := ih hnd.2 hk
      simp only [alErase] at hrec
      have hcond : (p.1 != k) = true := by simp [hp]
      rw [hcond]
      simp only [if_true, List.length_cons]
      omega

theorem minPair_eq_none_iff (l : List (String × Nat)) :
    minPair l = none ↔ l = [] := by
  cases l with
  | nil => simp [minPair]
  | cons p ps =>
    simp only [minPair]
    constructor
    · intro h
      rcases hmp : minPair ps with _ | r <;> rw [hmp] at h
      · simp at h
      · dsimp only at h
        split at h <;> simp at h
    · intro h
      simp at h

theorem minPair_mem (l : List (String × Nat)) (q : String × Nat)
    (h : minPair l = some q) : q ∈ l := by
  induction l generalizing q with
  | nil => simp [minPair] at h
  | cons p ps ih =>
    simp only [minPair] at h
    rcases hmp : minPair ps with _ | r <;> rw [hmp] at h
    · simp at h
      simp [h]
    · dsimp only at h
      split at h
      · simp at h
        simp [h]
      · simp at h
        exact List.mem_cons_of_mem _ (h ▸ ih r hmp)

theorem minPair_le (l : List (String × Nat)) (q : String × Nat)
    (h : minPair l = some q) : ∀ p ∈ l, q.2 ≤ p.2 := by
  induction l generalizing q with
  | nil => simp [minPair] at h
  | cons p ps ih =>
    simp only [minPair] at h
    rcases hmp : minPair ps with _ | r <;> rw [hmp] at h
    · have hps : ps = [] := (minPair_eq_none_iff ps).mp hmp
      simp at h
      subst hps
      intro x hx
      simp at hx
      subst hx
      subst h
      exact le_refl _
    · dsimp only at h
      intro x hx
      rcases List.mem_cons.mp hx with hxp | hxps
      · subst hxp
        split at h
        · simp at h
          subst h
          exact le_refl _
        · simp at h
          subst h
          rename_i hle
          omega
      · split at h
        · simp at h
          subst h
          rename_i hle
          exact le_trans hle (ih r hmp x hxps)
        · simp at h
          subst h
          exact ih _ hmp x hxps

theorem alMem_eq_decide {β : Type} (l : List (String × β)) (k : String) :
    alMem l k = decide (k ∈ alKeys l) := by
  rcases hb : alMem l k with _ | _
  · symm
    simp only [decide_eq_false_iff_not]
    intro hc
    have := (alMem_iff_mem_alKeys l k).mpr hc
    simp [this] at hb
  · symm
    simp only [decide_eq_true_eq]
    exact (alMem_iff_mem_alKeys l k).mp hb

theorem nodup_alKeys_alSet {β : Type} (l : List (String × β)) (k : String) (v : β)
    (hnd : (alKeys l).Nodup) : (alKeys (alSet l k v)).Nodup := by
  rw [alKeys_alSet]
  split
  · exact hnd
  · rename_i hmem
    have hk : k ∉ alKeys l := fun hc => by
      have := (alMem_iff_mem_alKeys l k).mpr hc
      simp [this] at hmem
    simp [List.nodup_append, hnd, hk]

theorem nodup_alKeys_alErase {β : Type} (l : List (String × β)) (k : String)
    (hnd : (alKeys l).Nodup) : (alKeys (alErase l k)).Nodup := by
  rw [alKeys_alErase]
  exact hnd.filter _

theorem not_mem_alKeys_alErase {β : Type} (l : List (String × β)) (k k' : String)
    (h : k' ∉ alKeys l) : k' ∉ alKeys (alErase l k) := by
  rw [alKeys_alErase]
  intro hc
  exact h (List.mem_of_mem_filter hc)

/-- `put_model` preserves the cache invariant (a failing put leaves the
cache unchanged). -/
theorem put_model_inv (c : ModelCache) (model_id : String) (m t : Nat)
    (h : CacheInv c) : CacheInv ((c.put_model model_id m t).getD c) := by
  obtain ⟨hkeys, hlen, hnd⟩ := h
  unfold ModelCache.put_model
  split
  · rename_i hcond
    obtain ⟨hfull, habsent⟩ := hcond
    rcases hmp : minPair c.access_times with _ | lru
    · simpa [CacheInv] using ⟨hkeys, hlen, hnd⟩
    · have hlru_mem_times : lru ∈ c.access_times := minPair_mem _ _ hmp
      have hlru_keys_times : lru.1 ∈ alKeys c.access_times :=
        List.mem_map_of_mem _ hlru_mem_times
      have hlru_keys_models : lru.1 ∈ alKeys c.models := hkeys ▸ hlru_keys_times
      have hid_not_mem : model_id ∉ alKeys c.models := by
        intro hc
        have := (alMem_iff_mem_alKeys c.models model_id).mpr hc
        simp [this] at habsent
      simp only [Option.getD_some]
      refine ⟨?_, ?_, ?_⟩
      · show alKeys (alSet (alErase c.models lru.1) model_id m)
            = alKeys (alSet (alErase c.access_times lru.1) model_id t)
        rw [alKeys_alSet, alKeys_alSet, alKeys_alErase, alKeys_alErase, hkeys]
        have hmem1 : alMem (alErase c.models lru.1) model_id = false := by
          rcases hb : alMem (alErase c.models lru.1) model_id with _ | _
          · rfl
          · exfalso
            have := (alMem_iff_mem_alKeys _ _).mp hb
            rw [alKeys_alErase] at this
            exact hid_not_mem (List.mem_of_mem_filter this)
        have hmem2 : alMem (alErase c.access_times lru.1) model_id = false := by
          rcases hb : alMem (alErase c.access_times lru.1) model_id with _ | _
          · rfl
          · exfalso
            have := (alMem_iff_mem_alKeys _ _).mp hb
            rw [alKeys_alErase, ← hkeys] at this
            exact hid_not_mem (List.mem_of_mem_filter this)
        rw [hmem1, hmem2]
      · show (alSet (alErase c.models lru.1) model_id m).length ≤ c.max_models
        rw [length_alSet]
        have herase := length_alErase_nodup c.models lru.1 hnd hlru_keys_models
        have hmem1 : alMem (alErase c.models lru.1) model_id = false := by
          rcases hb : alMem (alErase c.models lru.1) model_id with _ | _
          · rfl
          · exfalso
            have := (alMem_iff_mem_alKeys _ _).mp hb
            rw [alKeys_alErase] at this
            exact hid_not_mem (List.mem_of_mem_filter this)
        rw [hmem1]
        simp only [Bool.false_eq_true, if_false]
        omega
      · show (alKeys (alSet (alErase c.models lru.1) model_id m)).Nodup
        exact nodup_alKeys_alSet _ _ _ (nodup_alKeys_alErase _ _ hnd)
  · rename_i hcond
    simp only [Option.getD_some]
    rcases hb : alMem c.models model_id with _ | _
    · have hnotfull : c.models.length < c.max_models := by
        by_contra hge
        exact hcond ⟨by omega, hb⟩
      refine ⟨?_, ?_, ?_⟩
      · show alKeys (alSet c.models model_id m) = alKeys (alSet c.access_times model_id t)
        have htimes : alMem c.access_times model_id = alMem c.models model_id := by
          rw [alMem_eq_decide, alMem_eq_decide, hkeys]
        rw [alKeys_alSet, alKeys_alSet, hkeys, htimes, hb]
      · show (alSet c.models model_id m).length ≤ c.max_models
        rw [length_alSet, hb]
        simp only [Bool.false_eq_true, if_false]
        omega
      · exact nodup_alKeys_alSet _ _ _ hnd
    · refine ⟨?_, ?_, ?_⟩
      · show alKeys (alSet c.models model_id m) = alKeys (alSet c.access_times model_id t)
        have htimes : alMem c.access_times model_id = alMem c.models model_id := by
          rw [alMem_eq_decide, alMem_eq_decide, hkeys]
        rw [alKeys_alSet, alKeys_alSet, hkeys, htimes, hb]
      · show (alSet c.models model_id m).length ≤ c.max_models
        rw [length_alSet, hb]
        simpa using hlen
      · exact nodup_alKeys_alSet _ _ _ hnd

/-- The invariant holds along every run of puts. -/
theorem runPuts_inv (ops : List (String × Nat)) (c : ModelCache) (t : Nat)
    (h : CacheInv c) : CacheInv (runPuts c t ops) := by
  induction ops generalizing c t with
  | nil => exact h
  | cons op rest ih =>
    exact ih _ _ (put_model_inv c op.1 op.2 t h)

theorem put_model_max (c : ModelCache) (model_id : String) (m t : Nat) :
    ((c.put_model model_id m t).getD c).max_models = c.max_models := by
  unfold ModelCache.put_model
  split
  · rcases minPair c.access_times with _ | lru <;> rfl
  · rfl

theorem runPuts_max (ops : List (String × Nat)) (c : ModelCache) (t : Nat) :
    (runPuts c t ops).max_models = c.max_models := by
  induction ops generalizing c t with
  | nil => rfl
  | cons op rest ih =>
    show (runPuts ((c.put_model op.1 op.2 t).getD c) (t + 1) rest).max_models = _
    rw [ih, put_model_max]

/-- C3: for every sequence of `put_model` calls on a `ModelCache` of
capacity N the cache never holds more than N entries; a put of an absent
key that finds the cache at capacity evicts exactly one entry, the key
whose last access time is smallest at that moment; and with capacity 3,
after puts of M1, M2, M3 (no intervening gets) a put of M4 evicts M1 and
leaves exactly \x7bM2, M3, M4\x7d. -/
theorem modelCache_bounded_and_lru_eviction :
    (∀ (N : Nat) (ops : List (String × Nat)),
        (runPuts (ModelCache.init N) 0 ops).models.length ≤ N) ∧
    (∀ (c : ModelCache) (model_id : String) (m t : Nat),
        CacheInv c → c.models.length = c.max_models →
        alMem c.models model_id = false → 1 ≤ c.max_models →
        ∃ lru c', minPair c.access_times = some lru ∧
          c.put_model model_id m t = some c' ∧
          (∀ p ∈ c.access_times, lru.2 ≤ p.2) ∧
          (∀ k : String, k ∈ alKeys c'.models ↔
            ((k ∈ alKeys c.models ∧ k ≠ lru.1) ∨ k = model_id)) ∧
          c'.models.length = c.max_models) ∧
    (runPuts (ModelCache.init 3) 0 [("M1", 1), ("M2", 2), ("M3", 3), ("M4", 4)]).models
      = [("M2", 2), ("M3", 3), ("M4", 4)] := by
  refine ⟨?_, ?_, by decide⟩
  · intro N ops
    have hinit : CacheInv (ModelCache.init N) := by
      refine ⟨rfl, by simp [ModelCache.init], by simp [ModelCache.init, alKeys]⟩
    have h := (runPuts_inv ops _ 0 hinit).2.1
    rwa [runPuts_max] at h
  · intro c model_id m t hinv hfull habs hpos
    obtain ⟨hkeys, _, hnd⟩ := hinv
    rcases hmp : minPair c.access_times with _ | lru
    · exfalso
      have htimes : c.access_times = [] := (minPair_eq_none_iff _).mp hmp
      have : alKeys c.models = ([] : List String) := by rw [hkeys, htimes]; rfl
      have hmodels : c.models = [] := by
        cases hm : c.models
        · rfl
        · rw [hm] at this; simp [alKeys] at this
      rw [hmodels] at hfull
      simp at hfull
      omega
    · have hlru_mem : lru ∈ c.access_times := minPair_mem _ _ hmp
      have hlru_keys : lru.1 ∈ alKeys c.models :=
        hkeys ▸ List.mem_map_of_mem _ hlru_mem
      have hid_not_mem : model_id ∉ alKeys c.models := by
        intro hc
        have := (alMem_iff_mem_alKeys c.models model_id).mpr hc
        simp [this] at habs
      have hput : c.put_model model_id m t = some
          { c with
            models := alSet (alErase c.models lru.1) model_id m,
            access_times := alSet (alErase c.access_times lru.1) model_id t } := by
        unfold ModelCache.put_model
        rw [if_pos ⟨by omega, habs⟩, hmp]
      refine ⟨lru, _, rfl, hput, minPair_le _ _ hmp, ?_, ?_⟩
      · intro k
        have hmem1 : alMem (alErase c.models lru.1) model_id = false := by
          rcases hb : alMem (alErase c.models lru.1) model_id with _ | _
          · rfl
          · exfalso
            have := (alMem_iff_mem_alKeys _ _).mp hb
            rw [alKeys_alErase] at this
            exact hid_not_mem (List.mem_of_mem_filter this)
        show k ∈ alKeys (alSet (alErase c.models lru.1) model_id m) ↔ _
        rw [alKeys_alSet, hmem1]
        simp only [Bool.false_eq_true, if_false, alKeys_alErase, List.mem_append,
          List.mem_filter, List.mem_singleton, bne_iff_ne, ne_eq]
      · have hmem1 : alMem (alErase c.models lru.1) model_id = false := by
          rcases hb : alMem (alErase c.models lru.1) model_id with _ | _
          · rfl
          · exfalso
            have := (alMem_iff_mem_alKeys _ _).mp hb
            rw [alKeys_alErase] at this
            exact hid_not_mem (List.mem_of_mem_filter this)
        show (alSet (alErase c.models lru.1) model_id m).length = c.max_models
        rw [length_alSet, hmem1]
        have := length_alErase_nodup c.models lru.1 hnd hlru_keys
        simp only [Bool.false_eq_true, if_false]
        omega

/-- Witness for C3's hypothesis-bearing parts: a concrete full cache of
capacity 2 where a put of the absent key "C" evicts "B" (smallest access
time), plus the bound at a concrete run. -/
theorem modelCache_bounded_and_lru_eviction_witness :
    (runPuts (ModelCache.init 2) 0 [("A", 1), ("B", 2), ("C", 3)]).models.length ≤ 2 ∧
    ∃ lru c',
      minPair (ModelCache.mk 2 [("A", 10), ("B", 11)] [("A", 7), ("B", 4)]).access_times
          = some lru ∧
      (ModelCache.mk 2 [("A", 10), ("B", 11)] [("A", 7), ("B", 4)]).put_model "C" 12 9
          = some c' ∧
      (∀ p ∈ (ModelCache.mk 2 [("A", 10), ("B", 11)] [("A", 7), ("B", 4)]).access_times,
          lru.2 ≤ p.2) ∧
      (∀ k : String,
          k ∈ alKeys c'.models ↔
            ((k ∈ alKeys (ModelCache.mk 2 [("A", 10), ("B", 11)] [("A", 7), ("B", 4)]).models
                ∧ k ≠ lru.1) ∨ k = "C")) ∧
      c'.models.length = (ModelCache.mk 2 [("A", 10), ("B", 11)] [("A", 7), ("B", 4)]).max_models :=
  ⟨modelCache_bounded_and_lru_eviction.1 2 [("A", 1), ("B", 2), ("C", 3)],
   modelCache_bounded_and_lru_eviction.2.1
     (ModelCache.mk 2 [("A", 10), ("B", 11)] [("A", 7), ("B", 4)]) "C" 12 9
     ⟨by decide, by decide, by decide⟩ (by decide) (by decide) (by decide)⟩

/-! ## C1: promotion preserves the at-most-one-production invariant -/

theorem length_filter_id_le_one (models : List TrainedModel) (cid : String)
    (hnd : (models.map (fun m => m.id)).Nodup) :
    (models.filter (fun m => m.id == cid)).length ≤ 1 := by
  induction models with
  | nil => simp
  | cons m ms ih =>
    simp only [List.map_cons, List.nodup_cons] at hnd
    simp only [List.filter_cons]
    by_cases h : m.id = cid
    · have hnil : List.filter (fun m => m.id == cid) ms = [] := by
        rw [List.filter_eq_nil_iff]
        intro a ha
        simp only [beq_iff_eq]
        intro hac
        apply hnd.1
        rw [← h] at hac
        rw [← hac]
        exact List.mem_map_of_mem _ ha
      simp [h, hnil]
    · simp only [beq_iff_eq, h]
      simpa using ih hnd.2

/-- C1: if at most one ModelRecord per documentType has isProduction=true
before the promotion transaction of `auto_promote_models` (demote every
production record of the candidate's type, then activate the candidate),
then the same holds after it. -/
theorem auto_promote_preserves_at_most_one_production
    (models : List TrainedModel) (candidate : TrainedModel) (now : Nat)
    (hnd : (models.map (fun m => m.id)).Nodup)
    (hcand : ∀ m ∈ models, m.id = candidate.id →
        m.document_type = candidate.document_type)
    (hinv : AtMostOneProduction models) :
    AtMostOneProduction (promoteTransaction models candidate now) := by
  intro dt
  unfold AtMostOneProduction prodCount at hinv
  unfold prodCount promoteTransaction demoteAll
  rw [List.map_map, List.filter_map, List.length_map]
  by_cases hdt : dt = candidate.document_type
  · subst hdt
    have hpoint : ∀ m ∈ models,
        ((fun m => (m.document_type == candidate.document_type && m.is_production)) ∘
          ((fun m => if m.id == candidate.id then
              { candidate with is_production := true, status := "active", promoted_at := some now }
            else m) ∘
           (fun m => if m.document_type == candidate.document_type && m.is_production
              then { m with is_production := false, status := "inactive" } else m))) m
          = (m.id == candidate.id) := by
      intro m _
      simp only [Function.comp_apply]
      by_cases hid : m.id = candidate.id
      · by_cases hp : (m.document_type == candidate.document_type && m.is_production) = true
        · simp [hp, hid]
        · simp only [Bool.not_eq_true] at hp
          simp [hp, hid]
      · by_cases hp : (m.document_type == candidate.document_type && m.is_production) = true
        · simp [hp, hid]
        · simp only [Bool.not_eq_true] at hp
          simp [hp, hid]
    rw [List.filter_congr hpoint]
    exact length_filter_id_le_one models candidate.id hnd
  · have hpoint : ∀ m ∈ models,
        ((fun m => (m.document_type == dt && m.is_production)) ∘
          ((fun m => if m.id == candidate.id then
              { candidate with is_production := true, status := "active", promoted_at := some now }
            else m) ∘
           (fun m => if m.document_type == candidate.document_type && m.is_production
              then { m with is_production := false, status := "inactive" } else m))) m
          = (m.document_type == dt && m.is_production) := by
      intro m hm
      simp only [Function.comp_apply]
      by_cases hid : m.id = candidate.id
      · have hmt := hcand m hm hid
        have h1 : (candidate.document_type == dt) = false := by
          simp [Ne.symm hdt]
        have h2 : (m.document_type == dt) = false := by
          rw [hmt]
          exact h1
        by_cases hp : (m.document_type == candidate.document_type && m.is_production) = true
        · simp [hp, hid, h1, h2]
        · simp only [Bool.not_eq_true] at hp
          simp [hp, hid, h1, h2]
      · by_cases hp : (m.document_type == candidate.document_type && m.is_production) = true
        · have hmc : m.document_type = candidate.document_type := by
            simp only [Bool.and_eq_true, beq_iff_eq] at hp
            exact hp.1
          have h2 : (m.document_type == dt) = false := by
            rw [hmc]
            simp [Ne.symm hdt]
          simp [hp, hid, h2]
        · simp only [Bool.not_eq_true] at hp
          simp [hp, hid]
    rw [List.filter_congr hpoint]
    exact hinv dt

/-- Witness for C1 at a concrete input: promoting the only (testing)
model of its type keeps the invariant. -/
theorem auto_promote_preserves_at_most_one_production_witness :
    AtMostOneProduction (promoteTransaction
      [⟨"c1", "v1", "invoice", "testing", false, none, none, 0, none, none, "p"⟩]
      ⟨"c1", "v1", "invoice", "testing", false, none, none, 0, none, none, "p"⟩ 5) := by
  apply auto_promote_preserves_at_most_one_production
  · decide
  · decide
  · intro dt
    unfold prodCount
    simp [List.filter]

/-! ## C5: scoreField agrees with the spec formula, stays in [0,1], and
scores Scenario B at 0.6 -/

theorem forall_none_imp_iff (P : Nat → Prop) :
    (∀ mx : Nat, (none : Option Nat) = some mx → P mx) ↔ True := by
  simp

theorem forall_some_imp_iff (P : Nat → Prop) (a : Nat) :
    (∀ mx : Nat, (some a : Option Nat) = some mx → P mx) ↔ P a := by
  simp

/-- C5: `_validate_field` equals the reference scoring formula of the
spec for every value, rule and oracle behaviour; its result always lies
in [0,1]; and the value "INV-001" under rule \x7btype: string,
min_length: 3\x7d scores exactly 0.6. -/
theorem scoreField_matches_spec_in_bounds :
    (∀ (o : PyOracles) (v : PyValue) (rule : FieldRule),
        validate_field o v rule = scoreFieldSpec o v rule ∧
        0 ≤ validate_field o v rule ∧ validate_field o v rule ≤ 1) ∧
    (∀ o : PyOracles,
        validate_field o ⟨"INV-001", false⟩ ⟨some "string", none, some 3, none, none, false⟩
          = 6/10) := by
  constructor
  · intro o v rule
    refine ⟨?_, ?_, ?_⟩
    · by_cases hf : v.falsy
      · simp [validate_field, scoreFieldSpec, hf]
      · rcases rule with ⟨rt, rp, rmin, rmax, rmv, rreq⟩
        rcases rp with _ | p <;> rcases rmax with _ | mx <;>
          simp only [validate_field, scoreFieldSpec, hf, Bool.false_eq_true, if_false,
            Bool.and_eq_true, decide_eq_true_eq, and_true, Bool.and_true,
            forall_none_imp_iff, forall_some_imp_iff] <;>
          split_ifs <;> norm_num
    · by_cases hf : v.falsy
      · simp [validate_field, hf]
        norm_num
      · simp only [validate_field, hf, Bool.false_eq_true, if_false]
        exact le_max_left 0 _
    · by_cases hf : v.falsy
      · simp [validate_field, hf]
        norm_num
      · simp only [validate_field, hf, Bool.false_eq_true, if_false]
        exact max_le (by norm_num) (min_le_left 1 _)
  · intro o
    have h7 : ("INV-001" : String).length = 7 := rfl
    simp only [validate_field, h7]
    norm_num
    rw [if_neg (by decide : ¬("string" : String) = "number"),
      if_neg (by decide : ¬("string" : String) = "date")]
    norm_num [sup_eq_max, inf_eq_min, max_def, min_def]

/-- Witness for C5 at concrete oracle functions. -/
theorem scoreField_matches_spec_in_bounds_witness :
    (validate_field ⟨fun _ => false, fun _ => false, fun _ _ => false⟩
        ⟨"7", false⟩ (FieldRule.ofType "number")
      = scoreFieldSpec ⟨fun _ => false, fun _ => false, fun _ _ => false⟩
        ⟨"7", false⟩ (FieldRule.ofType "number")) ∧
    validate_field ⟨fun _ => false, fun _ => false, fun _ _ => false⟩
        ⟨"INV-001", false⟩ ⟨some "string", none, some 3, none, none, false⟩
      = 6/10 :=
  ⟨(scoreField_matches_spec_in_bounds.1 ⟨fun _ => false, fun _ => false, fun _ _ => false⟩
      ⟨"7", false⟩ (FieldRule.ofType "number")).1,
   scoreField_matches_spec_in_bounds.2 ⟨fun _ => false, fun _ => false, fun _ _ => false⟩⟩

/-! ## C6: promotion gate order -/

/-- C6 counterexample: one evaluation whose confidenceScore is 0.0
(non-null).  `evaluate_model` substitutes 0.5 for it (`x or 0.5` is
Python falsiness, not a null check), so with confidenceThreshold 0.3 the
candidate is promotable even though the mean with 0.5 substituted only
for null is 0 < 0.3, i.e. the claim's formula would fail the gate. -/
theorem evaluate_model_falsy_confidence_counterexample :
    ((ModelPromotionCriteria.mk 0 1 0 (3/10)).evaluate_model
        ⟨[⟨"c", "v1", "invoice", "testing", false, none, none, 0, none, none, "p"⟩],
         [⟨"c", 1, 1, some 0⟩], ["invoice"]⟩
        ⟨"c", "v1", "invoice", "testing", false, none, none, 0, none, none, "p"⟩).promotable
      = true ∧
    ((ModelPromotionCriteria.mk 0 1 0 (3/10)).evaluate_model
        ⟨[⟨"c", "v1", "invoice", "testing", false, none, none, 0, none, none, "p"⟩],
         [⟨"c", 1, 1, some 0⟩], ["invoice"]⟩
        ⟨"c", "v1", "invoice", "testing", false, none, none, 0, none, none, "p"⟩).avg_confidence
      = some (1/2) ∧
    avgConfidenceNullDefaultSpec (evalsFor
      ⟨[⟨"c", "v1", "invoice", "testing", false, none, none, 0, none, none, "p"⟩],
       [⟨"c", 1, 1, some 0⟩], ["invoice"]⟩ "c")
      < (3/10 : Rat) := by
  refine ⟨?_, ?_, ?_⟩
  · norm_num [ModelPromotionCriteria.evaluate_model, evalsFor, avgAccuracyOf, avgConfidenceOf,
      pyOrHalf, productionFor, List.filter]
  · norm_num [ModelPromotionCriteria.evaluate_model, evalsFor, avgAccuracyOf, avgConfidenceOf,
      pyOrHalf, productionFor, List.filter]
  · norm_num [avgConfidenceNullDefaultSpec, evalsFor, List.filter]

/-- C6 amended: `evaluate_model` short-circuits in the spec's gate order
(insufficient evaluations first, regardless of accuracy; then average
accuracy; then average confidence, computed with 0.5 substituted when
confidenceScore is null or 0.0; the production-comparison gate is skipped
when no production model exists), and Scenario C (12 evaluations,
accuracy 0.90, confidence 0.85, no production model) is promotable. -/
theorem evaluate_model_gates (c : ModelPromotionCriteria) (db : Db) (m : TrainedModel) :
    ((evalsFor db m.id).length < c.min_evaluations →
        (c.evaluate_model db m).promotable = false) ∧
    (¬ (evalsFor db m.id).length < c.min_evaluations →
      ((c.evaluate_model db m).avg_accuracy = some (avgAccuracyOf (evalsFor db m.id)) ∧
       (c.evaluate_model db m).avg_confidence = some (avgConfidenceOf (evalsFor db m.id))) ∧
      (avgAccuracyOf (evalsFor db m.id) < c.min_accuracy →
        (c.evaluate_model db m).promotable = false) ∧
      (¬ avgAccuracyOf (evalsFor db m.id) < c.min_accuracy →
        avgConfidenceOf (evalsFor db m.id) < c.confidence_threshold →
        (c.evaluate_model db m).promotable = false) ∧
      (¬ avgAccuracyOf (evalsFor db m.id) < c.min_accuracy →
        ¬ avgConfidenceOf (evalsFor db m.id) < c.confidence_threshold →
        productionFor db m.document_type = none →
        (c.evaluate_model db m).promotable = true)) ∧
    ((ModelPromotionCriteria.default.evaluate_model
        ⟨[⟨"c", "v1", "invoice", "testing", false, none, none, 0, none, none, "p"⟩],
         List.replicate 12 ⟨"c", 9, 10, some (85/100)⟩, ["invoice"]⟩
        ⟨"c", "v1", "invoice", "testing", false, none, none, 0, none, none, "p"⟩).promotable
      = true) := by
  refine ⟨?_, ?_, by
    norm_num [ModelPromotionCriteria.evaluate_model, ModelPromotionCriteria.default, evalsFor,
      avgAccuracyOf, avgConfidenceOf, pyOrHalf, productionFor, List.filter,
      List.replicate]⟩
  · intro h
    simp [ModelPromotionCriteria.evaluate_model, h]
  · intro h
    refine ⟨⟨?_, ?_⟩, ?_, ?_, ?_⟩
    · simp only [ModelPromotionCriteria.evaluate_model, h, if_false]
      split_ifs <;> first | rfl | (rcases hp : productionFor db m.document_type <;> simp [hp] <;> split_ifs <;> rfl)
    · simp only [ModelPromotionCriteria.evaluate_model, h, if_false]
      split_ifs <;> first | rfl | (rcases hp : productionFor db m.document_type <;> simp [hp] <;> split_ifs <;> rfl)
    · intro hacc
      simp [ModelPromotionCriteria.evaluate_model, h, hacc]
    · intro hacc hconf
      simp [ModelPromotionCriteria.evaluate_model, h, hacc, hconf]
    · intro hacc hconf hprod
      simp [ModelPromotionCriteria.evaluate_model, h, hacc, hconf, hprod]

/-- Witness for C6's amended theorem at concrete inputs: the
insufficient-evaluations gate fires with an empty history, and a
qualifying candidate without a production model is promotable. -/
theorem evaluate_model_gates_witness :
    (ModelPromotionCriteria.default.evaluate_model
        ⟨[⟨"c", "v1", "invoice", "testing", false, none, none, 0, none, none, "p"⟩], [],
          ["invoice"]⟩
        ⟨"c", "v1", "invoice", "testing", false, none, none, 0, none, none, "p"⟩).promotable
      = false ∧
    ((ModelPromotionCriteria.mk 0 1 0 (3/10)).evaluate_model
        ⟨[⟨"d", "v1", "invoice", "testing", false, none, none, 0, none, none, "p"⟩],
         [⟨"d", 1, 1, some 1⟩], ["invoice"]⟩
        ⟨"d", "v1", "invoice", "testing", false, none, none, 0, none, none, "p"⟩).promotable
      = true :=
  ⟨(evaluate_model_gates ModelPromotionCriteria.default
      ⟨[⟨"c", "v1", "invoice", "testing", false, none, none, 0, none, none, "p"⟩], [],
        ["invoice"]⟩
      ⟨"c", "v1", "invoice", "testing", false, none, none, 0, none, none, "p"⟩).1
      (by norm_num [evalsFor, List.filter, ModelPromotionCriteria.default]),
   (((evaluate_model_gates (ModelPromotionCriteria.mk 0 1 0 (3/10))
      ⟨[⟨"d", "v1", "invoice", "testing", false, none, none, 0, none, none, "p"⟩],
       [⟨"d", 1, 1, some 1⟩], ["invoice"]⟩
      ⟨"d", "v1", "invoice", "testing", false, none, none, 0, none, none, "p"⟩).2.1
      (by norm_num [evalsFor, List.filter])).2.2.2
      (by norm_num [avgAccuracyOf, evalsFor, List.filter])
      (by norm_num [avgConfidenceOf, pyOrHalf, evalsFor, List.filter])
      (by norm_num [productionFor, List.filter]))⟩

/-! ## C7: health report -/

theorem foldl_degraded (P : String → Bool) (l : List String) (a : String) :
    l.foldl (fun s dt => if P dt then "degraded" else s) a
      = if l.any P then "degraded" else a := by
  induction l generalizing a with
  | nil => simp
  | cons x xs ih =>
    simp only [List.foldl_cons, List.any_cons]
    by_cases h : P x
    · rw [ih]
      simp [h]
    · rw [ih]
      simp [h]

/-- C7: the health report is "degraded" iff some known documentType lacks
a production (isProduction ∧ active) model, "healthy" otherwise; the
monitor's advisory issues list contains a "no production model" entry for
each such type and a staleness entry for each type whose production model
was last used more than 24 hours ago, without changing the overall
status; Scenario E: with "form_16" uncovered, the status is "degraded"
and the issues name form_16. -/
theorem health_report_degraded_iff_and_issues (db : Db) (tests : List ABTestConfig)
    (now : Nat) :
    ((get_model_health db tests).overall_status = "degraded" ↔
      ∃ dt ∈ db.doc_types, productionFor db dt = none) ∧
    ((¬ ∃ dt ∈ db.doc_types, productionFor db dt = none) →
      (get_model_health db tests).overall_status = "healthy") ∧
    ((monitor_model_health db tests now).1 = get_model_health db tests) ∧
    (∀ dt ∈ db.doc_types, productionFor db dt = none →
      ("No production model for " ++ dt) ∈ (monitor_model_health db tests now).2) ∧
    (∀ dt p t, (dt, p) ∈ (get_model_health db tests).document_types →
      p.last_inference = some t → 86400 < now - t →
      ("Model for " ++ dt ++ " hasn\x27t been used in 24+ hours")
        ∈ (monitor_model_health db tests now).2) ∧
    ((get_model_health ⟨[], [], ["form_16"]⟩ []).overall_status = "degraded" ∧
      "No production model for form_16" ∈ (monitor_model_health ⟨[], [], ["form_16"]⟩ [] 0).2) := by
  have hstatus : (get_model_health db tests).overall_status
      = if db.doc_types.any (fun dt => (productionFor db dt).isNone) then "degraded"
        else "healthy" := by
    show db.doc_types.foldl _ "healthy" = _
    exact foldl_degraded _ _ _
  have hany : (db.doc_types.any (fun dt => (productionFor db dt).isNone) = true) ↔
      ∃ dt ∈ db.doc_types, productionFor db dt = none := by
    simp [List.any_eq_true, Option.isNone_iff_eq_none]
  refine ⟨?_, ?_, rfl, ?_, ?_, ?_, ?_⟩
  · rw [hstatus]
    by_cases h : db.doc_types.any (fun dt => (productionFor db dt).isNone) = true
    · simp only [h, if_true]
      simpa using hany.mp h
    · simp only [h, if_false]
      constructor
      · intro hc
        exact absurd hc (by decide)
      · intro hc
        exact absurd (hany.mpr hc) h
  · intro hne
    rw [hstatus]
    have : db.doc_types.any (fun dt => (productionFor db dt).isNone) = false := by
      rcases hb : db.doc_types.any (fun dt => (productionFor db dt).isNone) with _ | _
      · rfl
      · exact absurd (hany.mp hb) hne
    simp [this]
  · intro dt hdt hp
    show _ ∈ healthIssues (get_model_health db tests) now
    unfold healthIssues
    apply List.mem_append_right
    apply List.mem_flatMap.mpr
    refine ⟨(dt, docTypeHealth db dt), ?_, ?_⟩
    · show _ ∈ (get_model_health db tests).document_types
      unfold get_model_health
      exact List.mem_map_of_mem _ hdt
    · simp [docTypeHealth, hp]
  · intro dt p t hmem hlast hstale
    show _ ∈ healthIssues (get_model_health db tests) now
    unfold healthIssues
    apply List.mem_append_right
    apply List.mem_flatMap.mpr
    refine ⟨(dt, p), hmem, ?_⟩
    apply List.mem_append_right
    simp [hlast, hstale]
  · decide
  · decide

/-- Witness for C7's hypothesis-bearing parts at a concrete store:
"invoice" lacks a production model and "tax" has a stale one. -/
theorem health_report_degraded_iff_and_issues_witness :
    ("No production model for invoice" ∈ (monitor_model_health
        ⟨[⟨"m1", "v1", "tax", "active", true, none, none, 3, some 10, none, "p"⟩], [],
          ["invoice", "tax"]⟩ [] 100000).2) ∧
    ("Model for tax hasn\x27t been used in 24+ hours" ∈ (monitor_model_health
        ⟨[⟨"m1", "v1", "tax", "active", true, none, none, 3, some 10, none, "p"⟩], [],
          ["invoice", "tax"]⟩ [] 100000).2) ∧
    (get_model_health
        ⟨[⟨"m1", "v1", "tax", "active", true, none, none, 3, some 10, none, "p"⟩], [],
          ["tax"]⟩ []).overall_status = "healthy" :=
  ⟨(health_report_degraded_iff_and_issues
      ⟨[⟨"m1", "v1", "tax", "active", true, none, none, 3, some 10, none, "p"⟩], [],
        ["invoice", "tax"]⟩ [] 100000).2.2.2.1 "invoice" (by decide) (by decide),
   (health_report_degraded_iff_and_issues
      ⟨[⟨"m1", "v1", "tax", "active", true, none, none, 3, some 10, none, "p"⟩], [],
        ["invoice", "tax"]⟩ [] 100000).2.2.2.2.1 "tax"
      ⟨true, some "v1", some 10, 3⟩ 10 (by decide) (by decide) (by decide),
   (health_report_degraded_iff_and_issues
      ⟨[⟨"m1", "v1", "tax", "active", true, none, none, 3, some 10, none, "p"⟩], [],
        ["tax"]⟩ [] 0).2.1 (fun hc => by
     rcases hc with ⟨dt, hdt, hp⟩
     simp only [List.mem_singleton] at hdt
     subst hdt
     exact absurd hp (by decide))⟩

/-! ## C9 and C10: A/B routing -/

theorem routeTests_first_match (mdHash : String → Nat) (rand : Rat) (dt u : String)
    (now : Nat) :
    ∀ (tests : List ABTestConfig) (t : ABTestConfig),
      firstActiveTest tests dt now = some t →
      ∃ t' tests', routeTests mdHash rand dt (some u) now tests
          = some (chosenArm mdHash u t, tests') ∧
        firstActiveTest tests' dt now = some t' ∧
        chosenArm mdHash u t' = chosenArm mdHash u t := by
  intro tests
  induction tests with
  | nil =>
    intro t ht
    simp [firstActiveTest] at ht
  | cons h ts ih =>
    intro t ht
    by_cases hm : testMatches h dt now = true
    · have hth : t = h := by
        unfold firstActiveTest at ht
        simp only [List.find?, hm] at ht
        exact (Option.some.injEq _ _ ▸ ht).symm
      subst hth
      by_cases hcond : ((mdHash (u ++ "_" ++ t.test_id) % 100 : Nat) : Rat)
          < t.traffic_split * 100
      · refine ⟨{ t with model_b_requests := t.model_b_requests + 1 },
          { t with model_b_requests := t.model_b_requests + 1 } :: ts, ?_, ?_, ?_⟩
        · unfold routeTests
          rw [if_pos hm]
          have huse : useModelB mdHash rand (some u) t = true := by
            simp [useModelB, hcond]
          rw [if_pos huse]
          have harm : chosenArm mdHash u t = t.model_b := by
            simp [chosenArm, hcond]
          rw [harm]
        · unfold firstActiveTest
          have hmb : testMatches
              { t with model_b_requests := t.model_b_requests + 1 } dt now = true := hm
          simp only [List.find?, hmb]
        · rfl
      · refine ⟨{ t with model_a_requests := t.model_a_requests + 1 },
          { t with model_a_requests := t.model_a_requests + 1 } :: ts, ?_, ?_, ?_⟩
        · unfold routeTests
          rw [if_pos hm]
          have huse : useModelB mdHash rand (some u) t = false := by
            simp [useModelB, hcond]
          rw [huse]
          have harm : chosenArm mdHash u t = t.model_a := by
            simp [chosenArm, hcond]
          rw [harm]
          rfl
        · unfold firstActiveTest
          have hma : testMatches
              { t with model_a_requests := t.model_a_requests + 1 } dt now = true := hm
          simp only [List.find?, hma]
        · rfl
    · have hmf : testMatches h dt now = false := by
        rcases hb : testMatches h dt now with _ | _
        · rfl
        · exact absurd hb hm
      have hts : firstActiveTest ts dt now = some t := by
        unfold firstActiveTest at ht ⊢
        simpa only [List.find?, hmf] using ht
      obtain ⟨t', tests', h1, hf', harm⟩ := ih t hts
      refine ⟨t', h :: tests', ?_, ?_, harm⟩
      · unfold routeTests
        rw [if_neg hm, h1]
      · unfold firstActiveTest at hf' ⊢
        simpa only [List.find?, hmf] using hf'

/-- C9: during an active unexpired test, routing with the same non-empty
userId is deterministic: two successive `get_model_for_request` routing
passes choose the same arm, namely modelB iff the stable hash of
(userId, testId) mapped to [0,100) is below trafficSplit*100, else
modelA. -/
theorem ab_routing_deterministic_per_user (mdHash : String → Nat) (rand rand2 : Rat)
    (dt u : String) (now : Nat) (tests : List ABTestConfig) (t : ABTestConfig)
    (hfind : firstActiveTest tests dt now = some t) :
    ∃ tests' tests'',
      routeTests mdHash rand dt (some u) now tests
        = some (chosenArm mdHash u t, tests') ∧
      routeTests mdHash rand2 dt (some u) now tests'
        = some (chosenArm mdHash u t, tests'') := by
  obtain ⟨t', tests', h1, hf', harm⟩ :=
    routeTests_first_match mdHash rand dt u now tests t hfind
  obtain ⟨t'', tests'', h2, _, _⟩ :=
    routeTests_first_match mdHash rand2 dt u now tests' t' hf'
  exact ⟨tests', tests'', h1, by rw [h2, harm]⟩

/-- Witness for C9: three concrete routing passes on a started test
return the identical arm (Scenario D shape). -/
theorem ab_routing_deterministic_per_user_witness :
    ∃ tests' tests'',
      routeTests (fun s => s.length) 0 "invoice" (some "u1") 5
          [start_ab_test
            ⟨"p1", "v1", "invoice", "active", true, none, none, 0, none, none, "pp"⟩
            ⟨"c1", "v2", "invoice", "testing", false, none, none, 0, none, none, "cp"⟩
            (1/2) 7 0 "t1"]
        = some (chosenArm (fun s => s.length) "u1"
            (start_ab_test
              ⟨"p1", "v1", "invoice", "active", true, none, none, 0, none, none, "pp"⟩
              ⟨"c1", "v2", "invoice", "testing", false, none, none, 0, none, none, "cp"⟩
              (1/2) 7 0 "t1"), tests') ∧
      routeTests (fun s => s.length) 0 "invoice" (some "u1") 5 tests'
        = some (chosenArm (fun s => s.length) "u1"
            (start_ab_test
              ⟨"p1", "v1", "invoice", "active", true, none, none, 0, none, none, "pp"⟩
              ⟨"c1", "v2", "invoice", "testing", false, none, none, 0, none, none, "cp"⟩
              (1/2) 7 0 "t1"), tests'') :=
  ab_routing_deterministic_per_user (fun s => s.length) 0 0 "invoice" "u1" 5 _ _ rfl

theorem routeTests_none_of_no_match (mdHash : String → Nat) (rand : Rat) (dt : String)
    (uid : Option String) (now : Nat) :
    ∀ tests : List ABTestConfig, firstActiveTest tests dt now = none →
      routeTests mdHash rand dt uid now tests = none := by
  intro tests
  induction tests with
  | nil => intro _; rfl
  | cons h ts ih =>
    intro ht
    by_cases hm : testMatches h dt now = true
    · exfalso
      unfold firstActiveTest at ht
      simp only [List.find?, hm] at ht
      exact Option.noConfusion ht
    · have hts : firstActiveTest ts dt now = none := by
        unfold firstActiveTest at ht ⊢
        rwa [List.find?_cons_of_neg _ (by simpa using hm)] at ht
      unfold routeTests
      rw [if_neg hm, ih hts]

/-- C10: when the document type is known but no active unexpired test
matches it and it has no production (isProduction ∧ active) model,
`get_model_for_request` returns `.ok` with no model at all rather than
raising or producing a record. -/
theorem get_model_for_request_none_when_uncovered (db : Db)
    (tests : List ABTestConfig) (mdHash : String → Nat) (rand : Rat) (dt : String)
    (uid : Option String) (now : Nat)
    (hdt : dt ∈ db.doc_types)
    (hnotest : firstActiveTest tests dt now = none)
    (hprod : productionFor db dt = none) :
    get_model_for_request db tests mdHash rand dt uid now = .ok (none, tests) := by
  unfold get_model_for_request
  rw [if_pos hdt, routeTests_none_of_no_match mdHash rand dt uid now tests hnotest, hprod]

/-- Witness for C10 at a concrete empty store. -/
theorem get_model_for_request_none_when_uncovered_witness :
    get_model_for_request ⟨[], [], ["invoice"]⟩ [] (fun _ => 0) 0 "invoice" none 3
      = .ok (none, []) :=
  get_model_for_request_none_when_uncovered ⟨[], [], ["invoice"]⟩ [] (fun _ => 0) 0
    "invoice" none 3 (by decide) rfl rfl

/-! ## Engine helper lemmas (shared by the extract claims) -/

theorem resolveModel_mem (db : Db) (doc_type model_version : Option String)
    (model : TrainedModel)
    (h : resolveModel db doc_type model_version = .ok model) : model ∈ db.models := by
  unfold resolveModel at h
  rcases model_version with _ | v
  · rcases doc_type with _ | dt
    · exact Except.noConfusion h
    · dsimp only at h
      by_cases hdt : dt ∈ db.doc_types
      · rw [if_pos hdt] at h
        rcases hp : productionFor db dt with _ | m <;> rw [hp] at h
        · exact Except.noConfusion h
        · have hmem : m ∈ db.models.filter
              (fun m => m.document_type == dt && m.is_production && m.status == "active") := by
            unfold productionFor at hp
            rcases hf : db.models.filter
                (fun m => m.document_type == dt && m.is_production && m.status == "active")
              with _ | ⟨m1, rest⟩ <;> rw [hf] at hp
            · exact Option.noConfusion hp
            · simp only [List.head?] at hp
              rw [hf]
              exact (Option.some.injEq _ _ ▸ hp) ▸ List.mem_cons_self m1 rest
          have := List.mem_of_mem_filter hmem
          simp only [Except.ok.injEq] at h
          exact h ▸ this
      · rw [if_neg hdt] at h
        exact Except.noConfusion h
  · dsimp only at h
    rcases hf : db.models.filter (fun m => m.version == v && m.status == "active")
      with _ | ⟨m1, rest⟩ <;> rw [hf] at h
    · exact Except.noConfusion h
    · rcases rest with _ | ⟨m2, rest2⟩
      · simp only [Except.ok.injEq] at h
        have hmem : m1 ∈ db.models.filter (fun m => m.version == v && m.status == "active") := by
          rw [hf]
          exact List.mem_cons_self _ _
        exact h ▸ List.mem_of_mem_filter hmem
      · exact Except.noConfusion h

theorem get_production_model_ok (load : String → Option Nat) (st : EngineState)
    (doc_type model_version : Option String) (tick : Nat) (model : TrainedModel)
    (h : Nat) (st1 : EngineState)
    (hok : get_production_model load st doc_type model_version tick
        = .ok (model, h, st1)) :
    resolveModel st.db doc_type model_version = .ok model ∧ st1.db = st.db := by
  unfold get_production_model at hok
  rcases hres : resolveModel st.db doc_type model_version with e | m <;> rw [hres] at hok <;>
    try dsimp only at hok
  · exact Except.noConfusion hok
  · rcases hget : st.cache.get_model ("model_" ++ m.id) tick with ⟨o, cache1⟩
    rw [hget] at hok
    try dsimp only at hok
    rcases o with _ | hh
    · rcases hload : load m.model_path with _ | h2 <;> rw [hload] at hok <;>
        try dsimp only at hok
      · exact Except.noConfusion hok
      · rcases hput : st.cache.put_model ("model_" ++ m.id) h2 tick with _ | cache2 <;>
          rw [hput] at hok <;> try dsimp only at hok
        · exact Except.noConfusion hok
        · simp only [Except.ok.injEq, Prod.mk.injEq] at hok
          obtain ⟨h1, _, h3⟩ := hok
          subst h1
          rw [← h3]
          exact ⟨rfl, rfl⟩
    · simp only [Except.ok.injEq, Prod.mk.injEq] at hok
      obtain ⟨h1, _, h3⟩ := hok
      subst h1
      rw [← h3]
      exact ⟨rfl, rfl⟩

theorem extract_ok_spec (o : PyOracles) (load : String → Option Nat)
    (infer : Nat → String → String → Option Extracted) (st : EngineState)
    (image_path : String) (doc_type model_version : Option String)
    (confidence_threshold : Rat) (tick now : Nat) (elapsed : Rat)
    (res : ExtractionResult) (st2 : EngineState)
    (hok : extract o load infer st image_path doc_type model_version
        confidence_threshold tick now elapsed = (.ok res, st2)) :
    ∃ model : TrainedModel,
      resolveModel st.db doc_type model_version = .ok model ∧
      st2.db = saveModel st.db (updateUsage model now elapsed) ∧
      res.model_id = model.id ∧ res.model_version = model.version := by
  unfold extract at hok
  rcases hget : get_production_model load st doc_type model_version tick
    with e | ⟨model, h, st1⟩ <;> rw [hget] at hok <;> try dsimp only at hok
  · simp only [Prod.mk.injEq] at hok
    exact Except.noConfusion hok.1
  · obtain ⟨hres, hdb⟩ := get_production_model_ok load st doc_type model_version tick
      model h st1 hget
    rcases hinf : infer h image_path model.document_type with _ | data <;>
      rw [hinf] at hok <;> try dsimp only at hok
    · simp only [Prod.mk.injEq] at hok
      exact Except.noConfusion hok.1
    · simp only [Prod.mk.injEq, Except.ok.injEq] at hok
      obtain ⟨hres2, hst⟩ := hok
      refine ⟨model, hres, ?_, ?_, ?_⟩
      · rw [← hst, ← hdb]
      · rw [← hres2]
      · rw [← hres2]

theorem extract_error_spec (o : PyOracles) (load : String → Option Nat)
    (infer : Nat → String → String → Option Extracted) (st : EngineState)
    (image_path : String) (doc_type model_version : Option String)
    (confidence_threshold : Rat) (tick now : Nat) (elapsed : Rat)
    (e : EngineError) (st2 : EngineState)
    (herr : extract o load infer st image_path doc_type model_version
        confidence_threshold tick now elapsed = (.error e, st2)) :
    st2.db = st.db ∧ (e ≠ .inferenceFailed → st2 = st) := by
  unfold extract at herr
  rcases hget : get_production_model load st doc_type model_version tick
    with e1 | ⟨model, h, st1⟩ <;> rw [hget] at herr <;> try dsimp only at herr
  · simp only [Prod.mk.injEq, Except.error.injEq] at herr
    obtain ⟨he, hst⟩ := herr
    exact ⟨by rw [← hst], fun _ => hst.symm⟩
  · obtain ⟨_, hdb⟩ := get_production_model_ok load st doc_type model_version tick
      model h st1 hget
    rcases hinf : infer h image_path model.document_type with _ | data <;>
      rw [hinf] at herr <;> try dsimp only at herr
    · simp only [Prod.mk.injEq, Except.error.injEq] at herr
      obtain ⟨he, hst⟩ := herr
      refine ⟨by rw [← hst, hdb], fun hne => absurd he.symm hne⟩
    · simp only [Prod.mk.injEq] at herr
      exact Except.noConfusion herr.1

theorem extract_ok_saved (o : PyOracles) (load : String → Option Nat)
    (infer : Nat → String → String → Option Extracted) (st : EngineState)
    (image_path : String) (doc_type model_version : Option String)
    (confidence_threshold : Rat) (tick now : Nat) (elapsed : Rat)
    (model : TrainedModel) (res : ExtractionResult) (st2 : EngineState)
    (hok : extract o load infer st image_path doc_type model_version
        confidence_threshold tick now elapsed = (.ok res, st2))
    (hres : resolveModel st.db doc_type model_version = .ok model) :
    updateUsage model now elapsed ∈ st2.db.models ∧
    (∀ r ∈ st2.db.models, r.id = model.id → r = updateUsage model now elapsed) ∧
    (∀ r ∈ st2.db.models, r.id ≠ model.id → r ∈ st.db.models) := by
  obtain ⟨model', hres', hdb, _, _⟩ := extract_ok_spec o load infer st image_path
    doc_type model_version confidence_threshold tick now elapsed res st2 hok
  have hmm : model' = model := by
    rw [hres'] at hres
    exact Except.ok.injEq _ _ ▸ hres
  subst hmm
  have hmem : model' ∈ st.db.models := resolveModel_mem _ _ _ _ hres'
  have hid : (updateUsage model' now elapsed).id = model'.id := rfl
  refine ⟨?_, ?_, ?_⟩
  · rw [hdb]
    show _ ∈ st.db.models.map
      (fun r => if r.id == (updateUsage model' now elapsed).id
        then updateUsage model' now elapsed else r)
    have hmm2 := List.mem_map_of_mem
      (fun r => if r.id == (updateUsage model' now elapsed).id
        then updateUsage model' now elapsed else r) hmem
    have hf : (fun r => if r.id == (updateUsage model' now elapsed).id
        then updateUsage model' now elapsed else r) model'
        = updateUsage model' now elapsed := by
      rw [hid]
      simp
    rwa [hf] at hmm2
  · intro r hr hrid
    rw [hdb] at hr
    simp only [saveModel, List.mem_map] at hr
    obtain ⟨r0, _, hfr⟩ := hr
    by_cases hb : r0.id = (updateUsage model' now elapsed).id
    · rw [← hfr]
      simp [hb]
    · rw [← hfr]
      have hbf : (r0.id == (updateUsage model' now elapsed).id) = false := by
        simp [hb]
      rw [hbf]
      exfalso
      apply hb
      rw [hid]
      rw [← hrid, ← hfr]
      simp [hbf]
  · intro r hr hrid
    rw [hdb] at hr
    simp only [saveModel, List.mem_map] at hr
    obtain ⟨r0, hr0, hfr⟩ := hr
    by_cases hb : r0.id = (updateUsage model' now elapsed).id
    · exfalso
      apply hrid
      rw [← hfr]
      simp [hb, hid]
    · have hbf : (r0.id == (updateUsage model' now elapsed).id) = false := by
        simp [hb]
      rw [← hfr, hbf]
      simpa using hr0

/-! ## C4: usage statistics updated exactly on success -/

/-- C4: on every successful extract the resolved record is saved with
inferenceCount increased by exactly 1 and lastUsedAt set to the call's
timestamp (and every surviving record is either that update or an
untouched original); on every failing extract the record store is
unchanged; on a predictor load failure the entire state, cache included,
is unchanged — a handle is cached only after a successful load. -/
theorem extract_updates_usage_exactly_on_success (o : PyOracles)
    (load : String → Option Nat) (infer : Nat → String → String → Option Extracted)
    (st : EngineState) (image_path : String) (doc_type model_version : Option String)
    (confidence_threshold : Rat) (tick now : Nat) (elapsed : Rat) :
    (∀ (model : TrainedModel) (res : ExtractionResult) (st2 : EngineState),
        extract o load infer st image_path doc_type model_version confidence_threshold
            tick now elapsed = (.ok res, st2) →
        resolveModel st.db doc_type model_version = .ok model →
        updateUsage model now elapsed ∈ st2.db.models ∧
        (∀ r ∈ st2.db.models, r.id = model.id →
          r.inference_count = model.inference_count + 1 ∧ r.last_used_at = some now) ∧
        (∀ r ∈ st2.db.models, r.id ≠ model.id → r ∈ st.db.models)) ∧
    (∀ (e : EngineError) (st2 : EngineState),
        extract o load infer st image_path doc_type model_version confidence_threshold
            tick now elapsed = (.error e, st2) → st2.db = st.db) ∧
    (∀ st2 : EngineState,
        extract o load infer st image_path doc_type model_version confidence_threshold
            tick now elapsed = (.error .loadFailed, st2) → st2 = st) := by
  refine ⟨?_, ?_, ?_⟩
  · intro model res st2 hok hres
    obtain ⟨hmem, hall, hother⟩ := extract_ok_saved o load infer st image_path doc_type
      model_version confidence_threshold tick now elapsed model res st2 hok hres
    refine ⟨hmem, ?_, hother⟩
    intro r hr hrid
    rw [hall r hr hrid]
    exact ⟨rfl, rfl⟩
  · intro e st2 herr
    exact (extract_error_spec o load infer st image_path doc_type model_version
      confidence_threshold tick now elapsed e st2 herr).1
  · intro st2 herr
    exact (extract_error_spec o load infer st image_path doc_type model_version
      confidence_threshold tick now elapsed .loadFailed st2 herr).2 (by decide)

/-- Witness for C4: a concrete successful run saves the bumped record;
a concrete load-failure run leaves the state untouched. -/
theorem extract_updates_usage_witness :
    (updateUsage ⟨"m1", "v1", "invoice", "active", true, none, none, 5, none, none, "path"⟩
        100 1
      ∈ (⟨⟨[⟨"m1", "v1", "invoice", "active", true, none, some 1, 6, some 100, none, "path"⟩],
            [], ["invoice"]⟩,
          ⟨3, [("model_m1", 7)], [("model_m1", 0)]⟩⟩ : EngineState).db.models) ∧
    (∀ st2 : EngineState,
      extract ⟨fun _ => true, fun _ => true, fun _ _ => true⟩ (fun _ => none)
          (fun _ _ _ => some .nonDict)
          ⟨⟨[⟨"m1", "v1", "invoice", "active", true, none, none, 5, none, none, "path"⟩],
            [], ["invoice"]⟩, ModelCache.init 3⟩
          "img" (some "invoice") none (1/2) 0 100 1 = (.error .loadFailed, st2) →
      st2 = ⟨⟨[⟨"m1", "v1", "invoice", "active", true, none, none, 5, none, none, "path"⟩],
        [], ["invoice"]⟩, ModelCache.init 3⟩) := by
  constructor
  · have hok : extract ⟨fun _ => true, fun _ => true, fun _ _ => true⟩ (fun _ => some 7)
        (fun _ _ _ => some .nonDict)
        ⟨⟨[⟨"m1", "v1", "invoice", "active", true, none, none, 5, none, none, "path"⟩],
          [], ["invoice"]⟩, ModelCache.init 3⟩
        "img" (some "invoice") none (1/2) 0 100 1
        = (.ok ⟨.nonDict, 1/2, [], true, "m1", "v1", "invoice", 1, 0, true,
            ["Invalid output format: expected dictionary"]⟩,
          ⟨⟨[⟨"m1", "v1", "invoice", "active", true, none, some 1, 6, some 100, none, "path"⟩],
            [], ["invoice"]⟩, ⟨3, [("model_m1", 7)], [("model_m1", 0)]⟩⟩) := by
      norm_num [extract, get_production_model, resolveModel, productionFor, List.filter,
        ModelCache.get_model, ModelCache.put_model, ModelCache.init, alGet, alMem, alSet,
        alErase, minPair, List.find?, calculate_confidence, validate_output, validationRules,
        updateUsage, saveModel]
      rfl
    exact ((extract_updates_usage_exactly_on_success
        ⟨fun _ => true, fun _ => true, fun _ _ => true⟩ (fun _ => some 7)
        (fun _ _ _ => some .nonDict)
        ⟨⟨[⟨"m1", "v1", "invoice", "active", true, none, none, 5, none, none, "path"⟩],
          [], ["invoice"]⟩, ModelCache.init 3⟩
        "img" (some "invoice") none (1/2) 0 100 1).1 _ _ _ hok rfl).1
  · exact (extract_updates_usage_exactly_on_success
      ⟨fun _ => true, fun _ => true, fun _ _ => true⟩ (fun _ => none)
      (fun _ _ _ => some .nonDict)
      ⟨⟨[⟨"m1", "v1", "invoice", "active", true, none, none, 5, none, none, "path"⟩],
        [], ["invoice"]⟩, ModelCache.init 3⟩
      "img" (some "invoice") none (1/2) 0 100 1).2.2

/-! ## C8: the avgInferenceTime running blend -/

/-- C8 counterexample: a successful extract on a record whose stored
avgInferenceTime is 0.0 — a set value — writes elapsed (= 1), because
`if model.avg_inference_time:` treats 0.0 as unset; the claim's formula
(previous + elapsed)/2 would give 1/2. -/
theorem extract_avg_time_zero_counterexample :
    (extract ⟨fun _ => true, fun _ => true, fun _ _ => true⟩ (fun _ => some 7)
        (fun _ _ _ => some .nonDict)
        ⟨⟨[⟨"m2", "v1", "invoice", "active", true, none, some 0, 5, none, none, "path"⟩],
          [], ["invoice"]⟩, ModelCache.init 3⟩
        "img" (some "invoice") none (1/2) 0 100 1).2.db.models.map
        (fun r => r.avg_inference_time) = [some 1] ∧
    isOk (extract ⟨fun _ => true, fun _ => true, fun _ _ => true⟩ (fun _ => some 7)
        (fun _ _ _ => some .nonDict)
        ⟨⟨[⟨"m2", "v1", "invoice", "active", true, none, some 0, 5, none, none, "path"⟩],
          [], ["invoice"]⟩, ModelCache.init 3⟩
        "img" (some "invoice") none (1/2) 0 100 1).1 = true ∧
    some (1 : Rat) ≠ some (((0 : Rat) + 1) / 2) := by
  refine ⟨?_, ?_, ?_⟩
  · norm_num [extract, get_production_model, resolveModel, productionFor, List.filter,
      ModelCache.get_model, ModelCache.put_model, ModelCache.init, alGet, alMem, alSet,
      alErase, minPair, List.find?, updateUsage, saveModel]
  · norm_num [extract, get_production_model, resolveModel, productionFor, List.filter,
      ModelCache.get_model, ModelCache.put_model, ModelCache.init, alGet, alMem, alSet,
      alErase, minPair, List.find?, updateUsage, saveModel, isOk]
  · norm_num

/-- C8 amended: on every successful extract, the saved record's
avgInferenceTime becomes (previous + elapsed)/2 when it was previously
set to a nonzero value, and elapsed when it was previously unset or set
to 0.0 (Python falsiness collapses the two). -/
theorem extract_avg_time_running_blend (o : PyOracles)
    (load : String → Option Nat) (infer : Nat → String → String → Option Extracted)
    (st : EngineState) (image_path : String) (doc_type model_version : Option String)
    (confidence_threshold : Rat) (tick now : Nat) (elapsed : Rat) :
    ∀ (model : TrainedModel) (res : ExtractionResult) (st2 : EngineState),
      extract o load infer st image_path doc_type model_version confidence_threshold
          tick now elapsed = (.ok res, st2) →
      resolveModel st.db doc_type model_version = .ok model →
      (∀ a : Rat, model.avg_inference_time = some a → ¬ a = 0 →
        ∀ r ∈ st2.db.models, r.id = model.id →
          r.avg_inference_time = some ((a + elapsed) / 2)) ∧
      ((model.avg_inference_time = none ∨ model.avg_inference_time = some 0) →
        ∀ r ∈ st2.db.models, r.id = model.id →
          r.avg_inference_time = some elapsed) := by
  intro model res st2 hok hres
  obtain ⟨_, hall, _⟩ := extract_ok_saved o load infer st image_path doc_type
    model_version confidence_threshold tick now elapsed model res st2 hok hres
  constructor
  · intro a ha hne r hr hrid
    rw [hall r hr hrid]
    show (match model.avg_inference_time with
      | some a => if a == 0 then some elapsed else some ((a + elapsed) / 2)
      | none => some elapsed) = _
    rw [ha]
    simp [hne]
  · intro hcase r hr hrid
    rw [hall r hr hrid]
    show (match model.avg_inference_time with
      | some a => if a == 0 then some elapsed else some ((a + elapsed) / 2)
      | none => some elapsed) = _
    rcases hcase with hc | hc <;> rw [hc] <;> simp

/-- Witness for C8's amended theorem: a record previously averaging 2
seconds blends a 1-second call into (2+1)/2. -/
theorem extract_avg_time_running_blend_witness :
    (⟨"m3", "v1", "invoice", "active", true, none, some (3/2), 6, some 100, none,
        "path"⟩ : TrainedModel).avg_inference_time = some (((2 : Rat) + 1) / 2) := by
  have hok : extract ⟨fun _ => true, fun _ => true, fun _ _ => true⟩ (fun _ => some 7)
      (fun _ _ _ => some .nonDict)
      ⟨⟨[⟨"m3", "v1", "invoice", "active", true, none, some 2, 5, none, none, "path"⟩],
        [], ["invoice"]⟩, ModelCache.init 3⟩
      "img" (some "invoice") none (1/2) 0 100 1
      = (.ok ⟨.nonDict, 1/2, [], true, "m3", "v1", "invoice", 1, 0, true,
          ["Invalid output format: expected dictionary"]⟩,
        ⟨⟨[⟨"m3", "v1", "invoice", "active", true, none, some (3/2), 6, some 100, none,
            "path"⟩], [], ["invoice"]⟩,
          ⟨3, [("model_m3", 7)], [("model_m3", 0)]⟩⟩) := by
    norm_num [extract, get_production_model, resolveModel, productionFor, List.filter,
      ModelCache.get_model, ModelCache.put_model, ModelCache.init, alGet, alMem, alSet,
      alErase, minPair, List.find?, calculate_confidence, validate_output, validationRules,
      updateUsage, saveModel]
    rfl
  exact ((extract_avg_time_running_blend ⟨fun _ => true, fun _ => true, fun _ _ => true⟩
      (fun _ => some 7) (fun _ _ _ => some .nonDict)
      ⟨⟨[⟨"m3", "v1", "invoice", "active", true, none, some 2, 5, none, none, "path"⟩],
        [], ["invoice"]⟩, ModelCache.init 3⟩
      "img" (some "invoice") none (1/2) 0 100 1) _ _ _ hok rfl).1 2 rfl (by norm_num)
    ⟨"m3", "v1", "invoice", "active", true, none, some (3/2), 6, some 100, none, "path"⟩
    (List.mem_singleton.mpr rfl) rfl

/-! ## C2: model resolution for extract versus A/B routing -/

theorem resolveModel_doc_type (db : Db) (dt : String) (model : TrainedModel)
    (h : resolveModel db (some dt) none = .ok model) :
    productionFor db dt = some model := by
  unfold resolveModel at h
  dsimp only at h
  by_cases hdt : dt ∈ db.doc_types
  · rw [if_pos hdt] at h
    rcases hp : productionFor db dt with _ | m <;> rw [hp] at h
    · exact Except.noConfusion h
    · rw [Except.ok.injEq] at h
      rw [h]
  · rw [if_neg hdt] at h
    exact Except.noConfusion h

/-- C2 counterexample: with an active unexpired A/B test for "invoice"
whose routing picks the challenger c1 for user u1, `extract` still
resolves and uses the production model p1: `InferenceEngine.extract`
never consults the A/B test state, which only
`ABTestManager.get_model_for_request` reads. -/
theorem extract_ignores_active_ab_test_counterexample :
    (extract ⟨fun _ => true, fun _ => true, fun _ _ => true⟩ (fun _ => some 7)
        (fun _ _ _ => some .nonDict)
        ⟨⟨[⟨"p1", "v1", "invoice", "active", true, none, none, 0, none, none, "pp"⟩,
           ⟨"c1", "v2", "invoice", "testing", false, none, none, 0, none, none, "cp"⟩],
          [], ["invoice"]⟩, ModelCache.init 3⟩
        "img" (some "invoice") none (1/2) 0 100 1).1
      = .ok ⟨.nonDict, 1/2, [], true, "p1", "v1", "invoice", 1, 0, true,
          ["Invalid output format: expected dictionary"]⟩ ∧
    get_model_for_request
        ⟨[⟨"p1", "v1", "invoice", "active", true, none, none, 0, none, none, "pp"⟩,
          ⟨"c1", "v2", "invoice", "testing", false, none, none, 0, none, none, "cp"⟩],
         [], ["invoice"]⟩
        [start_ab_test
          ⟨"p1", "v1", "invoice", "active", true, none, none, 0, none, none, "pp"⟩
          ⟨"c1", "v2", "invoice", "testing", false, none, none, 0, none, none, "cp"⟩
          (1/2) 7 0 "t1"]
        (fun _ => 0) 0 "invoice" (some "u1") 5
      = .ok (some ⟨"c1", "v2", "invoice", "testing", false, none, none, 0, none, none, "cp"⟩,
          [⟨"t1", ⟨"p1", "v1", "invoice", "active", true, none, none, 0, none, none, "pp"⟩,
            ⟨"c1", "v2", "invoice", "testing", false, none, none, 0, none, none, "cp"⟩,
            1/2, 0, 604800, 0, 1, 0, 0, "active"⟩]) ∧
    ("p1" : String) ≠ "c1" := by
  refine ⟨?_, ?_, by decide⟩
  · norm_num [extract, get_production_model, resolveModel, productionFor, List.filter,
      ModelCache.get_model, ModelCache.put_model, ModelCache.init, alGet, alMem, alSet,
      alErase, minPair, List.find?, calculate_confidence, validate_output, validationRules,
      updateUsage, saveModel]
  · norm_num [get_model_for_request, routeTests, testMatches, useModelB, start_ab_test,
      productionFor, List.filter]

/-- C2 amended: `extract` with a documentType and no modelVersion always
resolves through the production lookup, regardless of any A/B test state
(which it never reads): a successful call uses the unique
isProduction ∧ active record, a known type without one yields
NoProductionModel, and supplying neither selector yields
MissingSelector.  A/B routing affects only
`ABTestManager.get_model_for_request`
(`ModelManager.get_model_for_inference`). -/
theorem extract_uses_production_lookup_only (o : PyOracles)
    (load : String → Option Nat) (infer : Nat → String → String → Option Extracted)
    (st : EngineState) (image_path : String) (confidence_threshold : Rat)
    (tick now : Nat) (elapsed : Rat) :
    (∀ (dt : String) (model : TrainedModel) (res : ExtractionResult) (st2 : EngineState),
        extract o load infer st image_path (some dt) none confidence_threshold
            tick now elapsed = (.ok res, st2) →
        productionFor st.db dt = some model →
        res.model_id = model.id ∧ res.model_version = model.version) ∧
    (∀ dt : String, dt ∈ st.db.doc_types → productionFor st.db dt = none →
        extract o load infer st image_path (some dt) none confidence_threshold
            tick now elapsed = (.error .noProductionModel, st)) ∧
    (extract o load infer st image_path none none confidence_threshold
        tick now elapsed = (.error .missingSelector, st)) := by
  refine ⟨?_, ?_, rfl⟩
  · intro dt model res st2 hok hp
    obtain ⟨model', hres', _, hid, hver⟩ := extract_ok_spec o load infer st image_path
      (some dt) none confidence_threshold tick now elapsed res st2 hok
    have hp' := resolveModel_doc_type st.db dt model' hres'
    rw [hp] at hp'
    rw [Option.some.injEq] at hp'
    rw [hid, hver, hp']
    exact ⟨rfl, rfl⟩
  · intro dt hdt hp
    have hres : resolveModel st.db (some dt) none = .error .noProductionModel := by
      unfold resolveModel
      dsimp only
      rw [if_pos hdt, hp]
    unfold extract get_production_model
    rw [hres]

/-- Witness for C2's amended theorem: a known documentType without a
production model makes extract fail with NoProductionModel, and no
selector at all yields MissingSelector. -/
theorem extract_uses_production_lookup_only_witness :
    (extract ⟨fun _ => true, fun _ => true, fun _ _ => true⟩ (fun _ => some 7)
        (fun _ _ _ => some .nonDict)
        ⟨⟨[⟨"c1", "v2", "invoice", "testing", false, none, none, 0, none, none, "cp"⟩],
          [], ["invoice"]⟩, ModelCache.init 3⟩
        "img" (some "invoice") none 0 0 1 1
      = (.error .noProductionModel,
        ⟨⟨[⟨"c1", "v2", "invoice", "testing", false, none, none, 0, none, none, "cp"⟩],
          [], ["invoice"]⟩, ModelCache.init 3⟩)) ∧
    (extract ⟨fun _ => true, fun _ => true, fun _ _ => true⟩ (fun _ => some 7)
        (fun _ _ _ => some .nonDict)
        ⟨⟨[⟨"c1", "v2", "invoice", "testing", false, none, none, 0, none, none, "cp"⟩],
          [], ["invoice"]⟩, ModelCache.init 3⟩
        "img" none none 0 0 1 1
      = (.error .missingSelector,
        ⟨⟨[⟨"c1", "v2", "invoice", "testing", false, none, none, 0, none, none, "cp"⟩],
          [], ["invoice"]⟩, ModelCache.init 3⟩)) :=
  ⟨(extract_uses_production_lookup_only ⟨fun _ => true, fun _ => true, fun _ _ => true⟩
      (fun _ => some 7) (fun _ _ _ => some .nonDict)
      ⟨⟨[⟨"c1", "v2", "invoice", "testing", false, none, none, 0, none, none, "cp"⟩],
        [], ["invoice"]⟩, ModelCache.init 3⟩
      "img" 0 0 1 1).2.1 "invoice" (by decide) rfl,
   (extract_uses_production_lookup_only ⟨fun _ => true, fun _ => true, fun _ _ => true⟩
      (fun _ => some 7) (fun _ _ _ => some .nonDict)
      ⟨⟨[⟨"c1", "v2", "invoice", "testing", false, none, none, 0, none, none, "cp"⟩],
        [], ["invoice"]⟩, ModelCache.init 3⟩
      "img" 0 0 1 1).2.2⟩

end Donut
